import Mathlib

/-!
# Verification of the bee-supervisor control plane

A shallow embedding, in Lean 4, of the core of the bee-supervisor
proof-of-concept (TypeScript): the Task Manager
(`src/tasks/manager/manager.ts`) and the Agent Registry
(`src/agents/registry/registry.ts`), together with the small
access-control layer they use.

JavaScript `Map`s are embedded as insertion-ordered association lists,
JavaScript `Set`s as insertion-ordered duplicate-free lists, exceptions
as `Except` values paired with the state reached at the throw point
(mutations performed before a throw persist, as they do in the source),
and wall-clock times as `Nat` parameters supplied by the caller.
-/

/-- Association-list lookup (embedding of JavaScript `Map.get`). -/
def alookup {κ α : Type} [DecidableEq κ] : List (κ × α) → κ → Option α
  | [], _ => none
  | (k, v) :: rest, key => if k = key then some v else alookup rest key

/-- Association-list insert-or-replace (embedding of JavaScript `Map.set`):
replaces the value in place when the key is present, appends otherwise. -/
def aset {κ α : Type} [DecidableEq κ] : List (κ × α) → κ → α → List (κ × α)
  | [], key, v => [(key, v)]
  | (k, w) :: rest, key, v =>
    if k = key then (k, v) :: rest else (k, w) :: aset rest key v

/-- Association-list removal (embedding of JavaScript `Map.delete`). -/
def aremove {κ α : Type} [DecidableEq κ] : List (κ × α) → κ → List (κ × α)
  | [], _ => []
  | (k, w) :: rest, key =>
    if k = key then rest else (k, w) :: aremove rest key

/-- In-place update of the value stored at a key (embedding of mutating the
object obtained from `Map.get`). -/
def supdate {κ α : Type} [DecidableEq κ] (l : List (κ × α)) (key : κ)
    (f : α → α) : List (κ × α) :=
  l.map fun p => if p.1 = key then (p.1, f p.2) else p

/-- Ordered-set insertion (embedding of JavaScript `Set.add`): appends the
element only when it is not already present. -/
def sadd {α : Type} [DecidableEq α] (l : List α) (a : α) : List α :=
  if a ∈ l then l else l ++ [a]

/-- Ordered-set removal (embedding of JavaScript `Set.delete`). -/
def sdel {α : Type} [DecidableEq α] (l : List α) (a : α) : List α :=
  l.erase a

/-- JavaScript truthiness of a nullable number (`null`, `undefined` and `0`
are falsy). -/
def jsTruthyOpt : Option Nat → Bool
  | none => false
  | some n => n ≠ 0

/-! ## Access control

`ResourcesAccessControl` (imported by the Task Manager from
`src/access-control/resources-access-control.js`) is not part of the
source snapshot; only its call sites are.  It is modelled from the spec
below.  -/

/-- Permission bits over {READ, WRITE, EXECUTE} (spec section 2,
"Access Control"). -/
structure Perm where
  read : Bool
  write : Bool
  execute : Bool
deriving Repr, DecidableEq

def READ_ONLY_ACCESS : Perm := ⟨true, false, false⟩
def WRITE_ONLY_ACCESS : Perm := ⟨false, true, false⟩
def READ_WRITE_ACCESS : Perm := ⟨true, true, false⟩
def READ_EXECUTE_ACCESS : Perm := ⟨true, false, true⟩
def FULL_ACCESS : Perm := ⟨true, true, true⟩

/-- `permLe req granted` holds when every bit required by `req` is granted. -/
def permLe (req granted : Perm) : Bool :=
  (!req.read || granted.read) && (!req.write || granted.write) &&
    (!req.execute || granted.execute)

/-- Modelled from the spec: the state of a `ResourcesAccessControl`
instance (source file missing from the snapshot): a resource registry
mapping `(resourceId, principalId)` to permission bits, plus the owner of
each resource and the instance-wide admin principals passed to the
constructor. -/
structure ACState where
  admins : List String
  /-- resourceId ↦ ownerId -/
  resources : List (String × String)
  /-- (resourceId, principalId) ↦ permission bits -/
  permissions : List ((String × String) × Perm)
deriving Repr, DecidableEq

/-- Modelled from the spec: a permission check passes for the resource's
owner, for an instance admin, or when the principal's granted bits cover
the required bits (spec scenario 5: "an acting agent not the owner or
admin" fails the check). -/
def acHasPermission (ac : ACState) (resourceId principalId : String)
    (req : Perm) : Bool :=
  alookup ac.resources resourceId = some principalId ||
    ac.admins.contains principalId ||
      (match alookup ac.permissions (resourceId, principalId) with
       | some granted => permLe req granted
       | none => false)

/-- Modelled from the spec: `createResource` records the resource with its
owner. -/
def acCreateResource (ac : ACState) (resourceId ownerId : String) : ACState :=
  { ac with resources := aset ac.resources resourceId ownerId }

/-- Modelled from the spec: `createPermissions` grants explicit bits to a
principal on a resource. -/
def acCreatePermissions (ac : ACState) (resourceId principalId : String)
    (perms : Perm) : ACState :=
  { ac with permissions := aset ac.permissions (resourceId, principalId) perms }

/-- Modelled from the spec: `removePermissions` drops a principal's
explicit bits on a resource. -/
def acRemovePermissions (ac : ACState) (resourceId principalId : String) :
    ACState :=
  { ac with permissions := aremove ac.permissions (resourceId, principalId) }

/-- Modelled from the spec: "removing a resource removes all principal
entries for it". -/
def acRemoveResource (ac : ACState) (resourceId : String) : ACState :=
  { ac with
    resources := aremove ac.resources resourceId
    permissions := ac.permissions.filter fun p => p.1.1 ≠ resourceId }

/-! ## Task Manager data model

Embedded from `src/tasks/manager/manager.ts`; the field lists follow the
object literals in that file (its `dto.js` is not part of the snapshot;
enumerations and id formats are taken from the spec's data model,
section 3). -/

/-- Task run statuses (spec section 3, lifecycle summary). -/
inductive TaskStatus where
  | CREATED | SCHEDULED | EXECUTING | WAITING | COMPLETED | FAILED | STOPPED
deriving Repr, DecidableEq

/-- Terminal status recorded in a history entry. -/
inductive TerminalStatus where
  | COMPLETED | FAILED | STOPPED
deriving Repr, DecidableEq

inductive ConcurrencyMode where
  | NONE | EXCLUSIVE
deriving Repr, DecidableEq

/-- Modelled from the spec: `isTaskRunActiveStatus` (defined in the
missing `dto.js`); a run counts as active while it is scheduled, executing
or waiting for its next interval. -/
def isTaskRunActiveStatus : TaskStatus → Bool
  | .SCHEDULED | .EXECUTING | .WAITING => true
  | _ => false

/-- Modelled from the spec: `isTaskRunTerminationStatus` (missing
`dto.js`); spec section 3 lists {COMPLETED, FAILED, STOPPED} as terminal. -/
def isTaskRunTerminationStatus : TaskStatus → Bool
  | .COMPLETED | .FAILED | .STOPPED => true
  | _ => false

/-- A task configuration (fields as constructed in `createTaskConfig`). -/
structure TaskConfig where
  taskKind : String
  taskType : String
  taskConfigId : String
  taskConfigVersion : Nat
  description : String
  taskConfigInput : String
  intervalMs : Nat
  runImmediately : Bool
  maxRepeats : Option Nat
  maxRetries : Option Nat
  retryDelayMs : Option Nat
  concurrencyMode : ConcurrencyMode
  agentKind : String
  agentType : String
  ownerAgentId : String
deriving Repr, DecidableEq

/-- Modelled from the spec: task config id format
`{kind}:{type}:v{version}` (spec section 3; `task-id.js` is missing from
the snapshot). -/
def taskConfigIdToValue (taskKind taskType : String)
    (taskConfigVersion : Nat) : String :=
  taskKind ++ ":" ++ taskType ++ ":v" ++ toString taskConfigVersion

/-- Modelled from the spec: task run id format `{kind}:{type}[n]:v{version}`
(spec section 3; `task-id.js` is missing from the snapshot). -/
def taskRunIdToString (taskKind taskType : String) (taskRunNum : Nat)
    (taskConfigVersion : Nat) : String :=
  taskKind ++ ":" ++ taskType ++ "[" ++ toString taskRunNum ++ "]:v" ++
    toString taskConfigVersion

/-- A history entry (fields as constructed in `onAgentComplete` /
`onAgentError`). -/
structure TaskRunHistoryEntry where
  timestamp : Nat
  terminalStatus : TerminalStatus
  output : Option String
  error : Option String
  runNumber : Nat
  maxRuns : Option Nat
  retryAttempt : Nat
  maxRepeats : Option Nat
  agentId : String
  executionTimeMs : Nat
deriving Repr, DecidableEq

/-- A task run, including the runtime-only fields (`intervalId` is embedded
as a flag recording whether an interval timer is installed). -/
structure TaskRunR where
  taskKind : String
  taskType : String
  taskRunId : String
  taskConfigVersion : Nat
  taskRunNum : Nat
  taskRunInput : String
  config : TaskConfig
  status : TaskStatus
  currentRetryAttempt : Nat
  isOccupied : Bool
  errorCount : Nat
  ownerAgentId : String
  completedRuns : Nat
  history : List TaskRunHistoryEntry
  currentAgentId : Option String
  occupiedSince : Option Nat
  lastRunAt : Option Nat
  nextRunAt : Option Nat
  intervalId : Bool
  maxHistoryEntries : Option Nat
deriving Repr, DecidableEq

/-- Per-version pool statistics (`TaskConfigPoolStats` in the missing
`dto.js`; field list read off `getPoolStats`). -/
structure TaskConfigPoolStats where
  poolSize : Nat
  created : Nat
  running : Nat
  waiting : Nat
  stopped : Nat
  failed : Nat
  completed : Nat
  terminated : Nat
  active : Nat
  total : Nat
deriving Repr, DecidableEq

def zeroTaskPoolStats : TaskConfigPoolStats :=
  ⟨0, 0, 0, 0, 0, 0, 0, 0, 0, 0⟩

/-- A task config together with its owner annotation, the JSONL record
shape persisted by `getSerializedEntities`
(`TaskConfigOwnedResource`). JSON encoding/decoding of the record is
treated as the identity on the record. -/
structure OwnedTaskConfig where
  ownerId : String
  taskConfig : TaskConfig
deriving Repr, DecidableEq

/-- Error kinds surfaced by the embedded operations (spec section 7). -/
inductive MErr where
  | notFound
  | permissionDenied
  | duplicateType
  | unknownAgentType
  | missingPool
  | alreadyExecuting
  | restoreFailed
deriving Repr, DecidableEq

def TASK_MANAGER_RESOURCE : String := "task_manager"
def TASK_MANAGER_USER : String := "task_manager_user"
def MAX_POOL_SIZE : Nat := 100

/-- The Task Manager state (`TaskManager`'s private fields).  The
two-level kind/type maps of the source are flattened to association lists
keyed by the `(kind, type)` pair; the reference implementation uses a
single task kind, and every access in the source goes through the pair.
The event log written by the state loggers is embedded as a list of event
tags, and the workspace JSONL file written by `persist` as
`persisted`. -/
structure MState where
  ac : ACState
  taskConfigs : List ((String × String) × List TaskConfig)
  taskRuns : List (String × TaskRunR)
  taskPools : List ((String × String) × List (Nat × List String))
  scheduledTasksToStart : List (String × String)
  registeredAgentTypes : List (String × List String)
  events : List String
  persisted : Option (List OwnedTaskConfig)
  maxHistoryEntries : Option Nat
deriving Repr, DecidableEq

/-- The state built by the `TaskManager` constructor (root resource owned
by the manager user, which is also the instance admin). -/
def initMState : MState :=
  { ac := { admins := [TASK_MANAGER_USER]
            resources := [(TASK_MANAGER_RESOURCE, TASK_MANAGER_USER)]
            permissions := [] }
    taskConfigs := []
    taskRuns := []
    taskPools := []
    scheduledTasksToStart := []
    registeredAgentTypes := []
    events := []
    persisted := none
    maxHistoryEntries := some 100 }

/-! ## Task Manager operations

Each operation embeds the method of the same name in
`src/tasks/manager/manager.ts`.  An operation returns the `Except`
outcome paired with the state it left behind; mutations performed before
a throw persist, exactly as in the source.  State-logger calls are
embedded as event-tag appends (the source writes the event payloads to a
log file). -/

def logEvent (st : MState) (tag : String) : MState :=
  { st with events := st.events ++ [tag] }

/-- `ac.checkPermission`: passes or throws *PermissionDenied*. -/
def checkPermission (st : MState) (resourceId principalId : String)
    (req : Perm) : Except MErr Unit :=
  if acHasPermission st.ac resourceId principalId req then .ok ()
  else .error .permissionDenied

/-- `getTaskRun` (lines 195-209): permission check, then map lookup. -/
def getTaskRunE (st : MState) (taskRunId actingAgentId : String)
    (permissions : Perm) : Except MErr TaskRunR :=
  match checkPermission st taskRunId actingAgentId permissions with
  | .error e => .error e
  | .ok _ =>
    match alookup st.taskRuns taskRunId with
    | none => .error .notFound
    | some taskRun => .ok taskRun

/-- `getTaskConfig` (lines 460-491).  Note the faithful dead store: when a
version is requested explicitly it is looked up only so that a missing
version raises not-found; the result is then unconditionally overwritten
with the latest version, and the permission check runs against the latest
version's config id. -/
def getTaskConfigE (st : MState) (taskKind taskType actingAgentId : String)
    (taskConfigVersion : Option Nat) (permissions : Perm) :
    Except MErr TaskConfig :=
  match alookup st.taskConfigs (taskKind, taskType) with
  | none => .error .notFound
  | some configVersions =>
    let versionFound : Bool :=
      match taskConfigVersion with
      | none => true
      | some v =>
        (configVersions.find? fun c => c.taskConfigVersion = v).isSome
    if !versionFound then .error .notFound
    else
      match configVersions.getLast? with
      | none => .error .notFound
      | some lastConfigVersion =>
        if acHasPermission st.ac lastConfigVersion.taskConfigId actingAgentId
            permissions then
          .ok lastConfigVersion
        else .error .permissionDenied

/-- The runs of a pool set visible to the acting agent (`getPoolStats`,
lines 239-251).  The source resolves each visible id through
`getTaskRun`, which would throw on an id missing from the run map; such
dangling ids (which do not arise in the states considered here) are
skipped. -/
def visibleTaskRuns (st : MState) (actingAgentId : String)
    (ids : List String) : List TaskRunR :=
  ids.filterMap fun id =>
    if acHasPermission st.ac id actingAgentId READ_ONLY_ACCESS then
      alookup st.taskRuns id
    else none

/-- The per-version statistics record built in `getPoolStats`
(lines 252-267); `created` counts only runs whose status is currently
CREATED. -/
def statsOfTaskRuns (config : TaskConfig) (taskRuns : List TaskRunR) :
    TaskConfigPoolStats :=
  { poolSize := match config.concurrencyMode with
      | .EXCLUSIVE => 1
      | .NONE => MAX_POOL_SIZE
    active := (taskRuns.filter fun t => isTaskRunActiveStatus t.status).length
    terminated :=
      (taskRuns.filter fun t => isTaskRunTerminationStatus t.status).length
    completed := (taskRuns.filter fun t => t.status = .COMPLETED).length
    running := (taskRuns.filter fun t => t.status = .EXECUTING).length
    failed := (taskRuns.filter fun t => t.status = .FAILED).length
    stopped := (taskRuns.filter fun t => t.status = .STOPPED).length
    waiting := (taskRuns.filter fun t => t.status = .WAITING).length
    created := (taskRuns.filter fun t => t.status = .CREATED).length
    total := taskRuns.length }

def sumTaskPoolStats (prev curr : TaskConfigPoolStats) : TaskConfigPoolStats :=
  { poolSize := curr.poolSize + prev.poolSize
    active := curr.active + prev.active
    terminated := curr.terminated + prev.terminated
    completed := curr.completed + prev.completed
    running := curr.running + prev.running
    failed := curr.failed + prev.failed
    stopped := curr.stopped + prev.stopped
    waiting := curr.waiting + prev.waiting
    created := curr.created + prev.created
    total := curr.total + prev.total }

/-- `getPoolStats` (lines 211-301): root-resource READ check, then the
per-version statistics over the runs visible to the acting agent, and
their field-wise sum.  The per-version `getTaskConfig` call checks READ
on the latest version's config id (see `getTaskConfigE`). -/
def getPoolStatsE (st : MState) (taskKind taskType actingAgentId : String) :
    Except MErr (TaskConfigPoolStats × List (Nat × TaskConfigPoolStats)) :=
  match checkPermission st TASK_MANAGER_RESOURCE actingAgentId
      READ_ONLY_ACCESS with
  | .error e => .error e
  | .ok _ =>
    match alookup st.taskPools (taskKind, taskType) with
    | none => .ok (zeroTaskPoolStats, [])
    | some pool =>
      match pool.mapM (fun p =>
          match getTaskConfigE st taskKind taskType actingAgentId (some p.1)
              READ_ONLY_ACCESS with
          | .error e => Except.error e
          | .ok config =>
            Except.ok
              (p.1, statsOfTaskRuns config
                (visibleTaskRuns st actingAgentId p.2))) with
      | .error e => .error e
      | .ok versions =>
        .ok (versions.foldl (fun acc v => sumTaskPoolStats acc v.2)
          zeroTaskPoolStats, versions)

/-- `getPoolStatsByVersion` (lines 303-328). -/
def getPoolStatsByVersionE (st : MState)
    (taskKind taskType : String) (taskConfigVersion : Nat)
    (actingAgentId : String) : Except MErr TaskConfigPoolStats :=
  match getPoolStatsE st taskKind taskType actingAgentId with
  | .error e => .error e
  | .ok (_, versions) =>
    match versions.find? fun p => p.1 = taskConfigVersion with
    | none => .ok zeroTaskPoolStats
    | some found => .ok found.2

/-- `_updateTaskRun` (lines 976-993): apply the partial update to the
stored run and log `task_run_update` (plus `pool_change` when the update
carries a status).  The source recomputes the pool statistics for the
`pool_change` payload with the manager user, an instance admin for which
the embedded permission checks always pass; here only the event tag is
recorded. -/
def updateTaskRunState (st : MState) (taskRunId : String)
    (f : TaskRunR → TaskRunR) (statusChange : Bool) : MState :=
  let st := { st with taskRuns := supdate st.taskRuns taskRunId f }
  let st := logEvent st ("task_run_update:" ++ taskRunId)
  if statusChange then logEvent st ("pool_change:" ++ taskRunId) else st

/-- `getSerializedEntities` (lines 153-173): one record per task type,
holding the latest config version and the owner recorded in the access
control layer.  The source throws when a type has no version and uses a
non-null owner assertion; both corners are skipped/defaulted here and do
not arise in the states considered.  JSON encoding is treated as the
identity on records. -/
def serializeEntities (st : MState) : List OwnedTaskConfig :=
  st.taskConfigs.filterMap fun p =>
    p.2.getLast?.map fun taskConfig =>
      { ownerId := (alookup st.ac.resources taskConfig.taskConfigId).getD ""
        taskConfig := taskConfig }

/-- `WorkspaceRestorable.persist`: write the serialized entities to the
workspace JSONL file. -/
def persistM (st : MState) : MState :=
  { st with persisted := some (serializeEntities st) }

/-- `initializeTaskPool` (lines 426-440): push a fresh empty version set. -/
def initializeTaskPool (st : MState) (taskKind taskType : String)
    (version : Nat) : MState :=
  let typePool := (alookup st.taskPools (taskKind, taskType)).getD []
  let pools := aset st.taskPools (taskKind, taskType) (typePool ++ [(version, [])])
  { st with taskPools := pools }

/-- `createTaskConfig` (lines 368-424).  The source takes the config
object minus id/version/owner and overrides those fields by spreading;
the embedding takes the full record and overrides the same fields, which
is also what happens at runtime when `restoreEntity` replays a persisted
record. -/
def createTaskConfig (st : MState) (config : TaskConfig)
    (ownerAgentId actingAgentId : String) (persist : Bool) :
    Except MErr TaskConfig × MState :=
  match checkPermission st TASK_MANAGER_RESOURCE actingAgentId
      WRITE_ONLY_ACCESS with
  | .error e => (.error e, st)
  | .ok _ =>
    if (alookup st.taskConfigs (config.taskKind, config.taskType)).isSome then
      (.error .duplicateType, st)
    else if !(((alookup st.registeredAgentTypes config.agentKind).getD
        []).contains config.agentType) then
      (.error .unknownAgentType, st)
    else
      let taskConfigId := taskConfigIdToValue config.taskKind config.taskType 1
      let configVersioned := { config with
        taskConfigId := taskConfigId
        ownerAgentId := ownerAgentId
        taskConfigVersion := 1 }
      let cfgs := aset st.taskConfigs (config.taskKind, config.taskType) [configVersioned]
      let st := { st with taskConfigs := cfgs }
      let st := { st with ac := acCreateResource st.ac taskConfigId ownerAgentId }
      let ac2 := acCreatePermissions st.ac taskConfigId ownerAgentId READ_EXECUTE_ACCESS
      let st := { st with ac := ac2 }
      let st := logEvent st ("task_config_create:" ++ taskConfigId)
      let st := initializeTaskPool st config.taskKind config.taskType 1
      let st := if persist then persistM st else st
      (.ok configVersioned, st)

/-- The partial update accepted by `updateTaskConfig` (lines 493-507). -/
structure TaskConfigUpdate where
  taskKind : String
  taskType : String
  description : Option String
  intervalMs : Option Nat
  taskConfigInput : Option String
  runImmediately : Option Bool
  maxRepeats : Option (Option Nat)
  maxRetries : Option (Option Nat)
  retryDelayMs : Option (Option Nat)
  concurrencyMode : Option ConcurrencyMode
deriving Repr, DecidableEq

/-- Modelled from the spec: `updateDeepPartialObject`
(`src/utils/objects.js`, missing from the snapshot) overrides exactly the
fields present in the partial update (spec section 9: explicit per-field
overrides, no generic recursive merge is relied upon). -/
def applyTaskConfigUpdate (config : TaskConfig) (update : TaskConfigUpdate) :
    TaskConfig :=
  { config with
    description := update.description.getD config.description
    intervalMs := update.intervalMs.getD config.intervalMs
    taskConfigInput := update.taskConfigInput.getD config.taskConfigInput
    runImmediately := update.runImmediately.getD config.runImmediately
    maxRepeats := update.maxRepeats.getD config.maxRepeats
    maxRetries := update.maxRetries.getD config.maxRetries
    retryDelayMs := update.retryDelayMs.getD config.retryDelayMs
    concurrencyMode := update.concurrencyMode.getD config.concurrencyMode }

/-- `updateTaskConfig` (lines 493-551): requires READ+WRITE via
`getTaskConfig`, then appends version `v+1`, registers the new resource,
logs and persists. -/
def updateTaskConfig (st : MState) (update : TaskConfigUpdate)
    (actingAgentId : String) : Except MErr TaskConfig × MState :=
  match getTaskConfigE st update.taskKind update.taskType actingAgentId none
      READ_WRITE_ACCESS with
  | .error e => (.error e, st)
  | .ok config =>
    let taskConfigVersion := config.taskConfigVersion + 1
    let taskConfigId := taskConfigIdToValue config.taskKind config.taskType
      taskConfigVersion
    let newConfigVersion := { applyTaskConfigUpdate config update with
      taskConfigId := taskConfigId
      taskConfigVersion := taskConfigVersion }
    let configVersions :=
      (alookup st.taskConfigs (update.taskKind, update.taskType)).getD []
    let cfgs := aset st.taskConfigs (update.taskKind, update.taskType) (configVersions ++ [newConfigVersion])
    let st := { st with taskConfigs := cfgs }
    let st := { st with ac := acCreateResource st.ac taskConfigId config.ownerAgentId }
    let ac2 := acCreatePermissions st.ac taskConfigId config.ownerAgentId READ_EXECUTE_ACCESS
    let st := { st with ac := ac2 }
    let st := logEvent st ("task_config_update:" ++ taskConfigId)
    let st := persistM st
    (.ok newConfigVersion, st)

/-- `scheduleStartTaskRun` (lines 717-745): FULL check, run lookup,
concurrency guard (silent no-op when the active count meets the pool
size), then SCHEDULED status and enqueue. -/
def scheduleStartTaskRun (st : MState) (taskRunId actingAgentId : String) :
    Except MErr Unit × MState :=
  match checkPermission st taskRunId actingAgentId FULL_ACCESS with
  | .error e => (.error e, st)
  | .ok _ =>
    match alookup st.taskRuns taskRunId with
    | none => (.error .notFound, st)
    | some taskRun =>
      match getPoolStatsByVersionE st taskRun.taskKind taskRun.taskType
          taskRun.taskConfigVersion actingAgentId with
      | .error e => (.error e, st)
      | .ok versionPoolStats =>
        if versionPoolStats.active ≥ versionPoolStats.poolSize then
          (.ok (), st)
        else
          let st := updateTaskRunState st taskRunId
            (fun r => { r with status := .SCHEDULED }) true
          let queue := st.scheduledTasksToStart ++ [(taskRunId, actingAgentId)]
          (.ok (), { st with scheduledTasksToStart := queue })

/-- `createTaskRun` (lines 617-711).  `taskRunNum` is the version pool's
`created` statistic plus one, where `created` counts only the runs whose
status is currently CREATED (see `statsOfTaskRuns`); the new run is
stored with `Map.set`, which replaces any existing entry under the same
id. -/
def createTaskRun (st : MState)
    (taskKind taskType taskRunInput actingAgentId : String) :
    Except MErr TaskRunR × MState :=
  match getTaskConfigE st taskKind taskType actingAgentId none
      READ_EXECUTE_ACCESS with
  | .error e => (.error e, st)
  | .ok config =>
    match checkPermission st config.taskConfigId actingAgentId
        READ_EXECUTE_ACCESS with
    | .error e => (.error e, st)
    | .ok _ =>
      match getPoolStatsByVersionE st taskKind taskType
          config.taskConfigVersion actingAgentId with
      | .error e => (.error e, st)
      | .ok versionPoolStats =>
        let taskRunNum := versionPoolStats.created + 1
        let taskRunId := taskRunIdToString taskKind taskType taskRunNum
          config.taskConfigVersion
        if !(((alookup st.registeredAgentTypes config.agentKind).getD
            []).contains config.agentType) then
          (.error .unknownAgentType, st)
        else
          let taskRun : TaskRunR :=
            { taskKind := taskKind
              taskType := taskType
              taskRunId := taskRunId
              taskConfigVersion := config.taskConfigVersion
              taskRunNum := taskRunNum
              taskRunInput := taskRunInput
              config := config
              status := .CREATED
              currentRetryAttempt := 0
              isOccupied := false
              errorCount := 0
              ownerAgentId := config.ownerAgentId
              completedRuns := 0
              history := []
              currentAgentId := none
              occupiedSince := none
              lastRunAt := none
              nextRunAt := none
              intervalId := false
              maxHistoryEntries := none }
          let st := { st with taskRuns := aset st.taskRuns taskRunId taskRun }
          let st := logEvent st ("task_run_create:" ++ taskRunId)
          let ac2 := acCreateResource st.ac taskRunId actingAgentId
          let st := { st with ac := ac2 }
          match alookup st.taskPools (taskKind, taskType) with
          | none => (.error .missingPool, st)
          | some pool =>
            let pool' :=
              if (pool.find? fun p => p.1 = config.taskConfigVersion).isSome
              then pool.map fun p =>
                if p.1 = config.taskConfigVersion then
                  (p.1, sadd p.2 taskRunId)
                else p
              else pool ++ [(config.taskConfigVersion, [taskRunId])]
            let pools := aset st.taskPools (taskKind, taskType) pool'
            let st := { st with taskPools := pools }
            let st := logEvent st ("pool_change:" ++ taskRunId)
            if config.runImmediately then
              let res := scheduleStartTaskRun st taskRunId actingAgentId
              match res.1 with
              | .error e => (.error e, res.2)
              | .ok _ => (.ok taskRun, res.2)
            else (.ok taskRun, st)

/-- `executeTask` (lines 1029-1066), up to the invocation of the external
`onTaskStart` callback: the permission checks, the skip guard for
completed or occupied runs, and the transition to EXECUTING.  The
worker-side callbacks that `onTaskStart` eventually fires are separate
operations below. -/
def executeTask (st : MState) (taskRunId actingAgentId : String)
    (now : Nat) : Except MErr Unit × MState :=
  match checkPermission st taskRunId actingAgentId READ_EXECUTE_ACCESS with
  | .error e => (.error e, st)
  | .ok _ =>
    match getTaskRunE st taskRunId actingAgentId READ_ONLY_ACCESS with
    | .error e => (.error e, st)
    | .ok taskRun =>
      if taskRun.status = .COMPLETED ∨ taskRun.isOccupied then (.ok (), st)
      else
        let nextRunAt : Option Nat :=
          match taskRun.config.maxRepeats with
          | some m =>
            if taskRun.completedRuns < m then
              some (now + taskRun.config.intervalMs)
            else none
          | none => none
        let st := updateTaskRunState st taskRunId
          (fun r => { r with
            status := .EXECUTING
            lastRunAt := some now
            nextRunAt := nextRunAt }) true
        (.ok (), st)

/-- `processNextStartTask` (lines 747-791), up to the `await` of
`executeTask`: dequeue (the dequeue persists even when a later check
throws), FULL-access fetch, already-executing guard, and the immediate
execution branch.  The interval branch that runs after the `await`
returns is `finishStartTask` below. -/
def processNextStartTask (st : MState) (now : Nat) :
    Except MErr Unit × MState :=
  match st.scheduledTasksToStart with
  | [] => (.ok (), st)
  | (taskRunId, actingAgentId) :: rest =>
    let st := { st with scheduledTasksToStart := rest }
    match getTaskRunE st taskRunId actingAgentId FULL_ACCESS with
    | .error e => (.error e, st)
    | .ok taskRun =>
      if taskRun.status = .EXECUTING then (.error .alreadyExecuting, st)
      else if taskRun.config.runImmediately ∨
          taskRun.config.intervalMs = 0 then
        executeTask st taskRunId actingAgentId now
      else (.ok (), st)

/-- The interval branch of `processNextStartTask` (lines 771-788),
executed after the `await this.executeTask(...)` resumes (by which time
the worker callbacks may already have run): install the interval timer
and park the run as WAITING. -/
def finishStartTask (st : MState) (taskRunId : String) (now : Nat) :
    Except MErr Unit × MState :=
  match alookup st.taskRuns taskRunId with
  | none => (.error .notFound, st)
  | some taskRun =>
    if taskRun.config.intervalMs ≠ 0 ∧
        (taskRun.config.maxRepeats = none ∨
          taskRun.completedRuns < taskRun.config.maxRepeats.getD 0) then
      let runs := supdate st.taskRuns taskRunId
        fun r => { r with intervalId := true }
      let st := { st with taskRuns := runs }
      let st := updateTaskRunState st taskRunId
        (fun r => { r with
          status := .WAITING
          nextRunAt := some (now + taskRun.config.intervalMs) }) true
      (.ok (), st)
    else (.ok (), st)

/-- `setTaskRunOccupied` (lines 889-928): grants the agent FULL access on
the run *before* fetching it, then marks the run occupied.  The
occupancy-timeout one-shot scheduled here is embedded as a later
`releaseTaskRunOccupancy` operation performed with the same acting
agent. -/
def setTaskRunOccupied (st : MState) (taskRunId actingAgentId : String)
    (now : Nat) : Except MErr Bool × MState :=
  let ac2 := acCreatePermissions st.ac taskRunId actingAgentId FULL_ACCESS
  let st := { st with ac := ac2 }
  match getTaskRunE st taskRunId actingAgentId READ_ONLY_ACCESS with
  | .error e => (.error e, st)
  | .ok taskRun =>
    if taskRun.isOccupied then (.ok false, st)
    else
      let st := updateTaskRunState st taskRunId
        (fun r => { r with
          isOccupied := true
          occupiedSince := some now
          currentAgentId := some actingAgentId }) false
      let st := logEvent st ("assignment_assign:" ++ taskRunId)
      (.ok true, st)

/-- `releaseTaskRunOccupancy` (lines 934-960): clears occupancy and
removes the *acting* agent's permissions on the run. -/
def releaseTaskRunOccupancy (st : MState) (taskRunId actingAgentId : String) :
    Except MErr Bool × MState :=
  match getTaskRunE st taskRunId actingAgentId READ_ONLY_ACCESS with
  | .error e => (.error e, st)
  | .ok taskRun =>
    if !taskRun.isOccupied then (.ok false, st)
    else
      let st := updateTaskRunState st taskRunId
        (fun r => { r with
          isOccupied := false
          occupiedSince := none
          currentAgentId := none }) false
      let ac2 := acRemovePermissions st.ac taskRunId actingAgentId
      let st := { st with ac := ac2 }
      let st := logEvent st ("assignment_unassign:" ++ taskRunId)
      (.ok true, st)

/-- `stopTaskRun` (lines 793-819): READ+WRITE check, no-op on an already
STOPPED run, clear the interval timer, release occupancy when held, and
set the terminal status — COMPLETED only when the `isCompleted` flag is
passed, which no caller in the source does. -/
def stopTaskRun (st : MState) (taskRunId actingAgentId : String)
    (isCompleted : Bool) : Except MErr Unit × MState :=
  match checkPermission st taskRunId actingAgentId READ_WRITE_ACCESS with
  | .error e => (.error e, st)
  | .ok _ =>
    match getTaskRunE st taskRunId actingAgentId READ_ONLY_ACCESS with
    | .error e => (.error e, st)
    | .ok taskRun =>
      if taskRun.status = .STOPPED then (.ok (), st)
      else
        let st :=
          if taskRun.intervalId then
            let runs := supdate st.taskRuns taskRunId
              fun r => { r with intervalId := false }
            { st with taskRuns := runs }
          else st
        let res :=
          if taskRun.isOccupied then
            releaseTaskRunOccupancy st taskRunId actingAgentId
          else (.ok false, st)
        match res.1 with
        | .error e => (.error e, res.2)
        | .ok _ =>
          let st := updateTaskRunState res.2 taskRunId
            (fun r => { r with
              status := if isCompleted then .COMPLETED else .STOPPED
              nextRunAt := none }) true
          (.ok (), st)

/-- The history append-and-trim of `addHistoryEntry` (lines 1178-1190),
applied to the stored run. -/
def appendHistoryEntry (maxEntries : Option Nat)
    (entry : TaskRunHistoryEntry) (r : TaskRunR) : TaskRunR :=
  let hist := r.history ++ [entry]
  let hist :=
    if jsTruthyOpt maxEntries ∧ hist.length > maxEntries.getD 0 then
      hist.drop (hist.length - maxEntries.getD 0)
    else hist
  { r with history := hist }

/-- `addHistoryEntry` (lines 1172-1191): append, log, and trim the ring
to `maxHistoryEntries` (the run-level override, else the manager
option). -/
def addHistoryEntry (st : MState) (taskRunId actingAgentId : String)
    (entry : TaskRunHistoryEntry) : Except MErr Unit × MState :=
  match getTaskRunE st taskRunId actingAgentId READ_ONLY_ACCESS with
  | .error e => (.error e, st)
  | .ok taskRun =>
    let maxEntries : Option Nat :=
      match taskRun.maxHistoryEntries with
      | some m => some m
      | none => st.maxHistoryEntries
    let runs := supdate st.taskRuns taskRunId
      (appendHistoryEntry maxEntries entry)
    let st := { st with taskRuns := runs }
    let st := logEvent st ("history_entry_create:" ++ taskRunId)
    (.ok (), st)

/-- The `onAgentComplete` callback (lines 1071-1110): READ+WRITE fetch by
the agent, `completedRuns` increment, COMPLETED history entry, then
either stop (maxRepeats falsy or reached) or release occupancy.  There
is no terminal-status guard. -/
def onAgentComplete (st : MState) (output taskRunId agentId : String)
    (now startTime : Nat) : Except MErr Unit × MState :=
  match getTaskRunE st taskRunId agentId READ_WRITE_ACCESS with
  | .error e => (.error e, st)
  | .ok taskRun0 =>
    let st := updateTaskRunState st taskRunId
      (fun r => { r with completedRuns := r.completedRuns + 1 }) false
    let taskRun := { taskRun0 with
      completedRuns := taskRun0.completedRuns + 1 }
    let entry : TaskRunHistoryEntry :=
      { timestamp := now
        terminalStatus := .COMPLETED
        output := some output
        error := none
        runNumber := taskRun.completedRuns
        maxRuns := taskRun.config.maxRepeats
        retryAttempt := taskRun.currentRetryAttempt
        maxRepeats := taskRun.config.maxRepeats
        agentId := agentId
        executionTimeMs := now - startTime }
    let hres := addHistoryEntry st taskRunId agentId entry
    match hres.1 with
    | .error e => (.error e, hres.2)
    | .ok _ =>
      if !(jsTruthyOpt taskRun.config.maxRepeats) ∨
          (jsTruthyOpt taskRun.config.maxRepeats ∧
            taskRun.completedRuns ≥ taskRun.config.maxRepeats.getD 0) then
        stopTaskRun hres.2 taskRunId agentId false
      else
        let rres := releaseTaskRunOccupancy hres.2 taskRunId agentId
        match rres.1 with
        | .error e => (.error e, rres.2)
        | .ok _ => (.ok (), rres.2)

/-- The `onAgentError` callback (lines 1111-1164): READ fetch by the
agent, error and run counters, FAILED history entry, occupancy release,
then the retry branch.  Note that the retry branch tests and caps on
`config.maxRepeats` (lines 1155-1156), not `config.maxRetries`; on a
retry the run is stopped with the *config owner* as acting identity. -/
def onAgentError (st : MState) (errMsg taskRunId agentId : String)
    (now startTime : Nat) : Except MErr Unit × MState :=
  match getTaskRunE st taskRunId agentId READ_ONLY_ACCESS with
  | .error e => (.error e, st)
  | .ok taskRun0 =>
    let st := updateTaskRunState st taskRunId
      (fun r => { r with
        errorCount := r.errorCount + 1
        completedRuns := r.completedRuns + 1 }) false
    let taskRun := { taskRun0 with
      errorCount := taskRun0.errorCount + 1
      completedRuns := taskRun0.completedRuns + 1 }
    let retryAttempt := taskRun.currentRetryAttempt
    let entry : TaskRunHistoryEntry :=
      { timestamp := now
        terminalStatus := .FAILED
        output := none
        error := some errMsg
        runNumber := taskRun.completedRuns
        maxRuns := taskRun.config.maxRepeats
        retryAttempt := retryAttempt
        maxRepeats := taskRun.config.maxRepeats
        agentId := agentId
        executionTimeMs := now - startTime }
    let hres := addHistoryEntry st taskRunId agentId entry
    match hres.1 with
    | .error e => (.error e, hres.2)
    | .ok _ =>
      let rres := releaseTaskRunOccupancy hres.2 taskRunId agentId
      match rres.1 with
      | .error e => (.error e, rres.2)
      | .ok _ =>
        if jsTruthyOpt taskRun.config.maxRepeats then
          if retryAttempt ≥ taskRun.config.maxRepeats.getD 0 then
            stopTaskRun rres.2 taskRunId taskRun.config.ownerAgentId false
          else
            let st := updateTaskRunState rres.2 taskRunId
              (fun r => { r with currentRetryAttempt := retryAttempt + 1 })
              false
            (.ok (), st)
        else (.ok (), rres.2)

/-- The public `updateTaskRun` (lines 965-973): WRITE fetch, then the
input update. -/
def updateTaskRunP (st : MState) (taskRunId taskRunInput acting : String) :
    Except MErr Unit × MState :=
  match getTaskRunE st taskRunId acting WRITE_ONLY_ACCESS with
  | .error e => (.error e, st)
  | .ok _ =>
    let st := updateTaskRunState st taskRunId
      (fun r => { r with taskRunInput := taskRunInput }) false
    (.ok (), st)

/-- The tail of `destroyTaskRun` (lines 841-883): remove the run from its
version pool set (splicing the version entry when it empties) and delete
the run. -/
def destroyTaskRunFinish (st : MState) (taskRunId : String)
    (taskRun : TaskRunR) : Except MErr Unit × MState :=
  let key := (taskRun.config.taskKind, taskRun.config.taskType)
  let v := taskRun.config.taskConfigVersion
  match alookup st.taskPools key with
  | none => (.error .missingPool, st)
  | some pool =>
    match pool.find? fun p => p.1 = v with
    | none => (.error .missingPool, st)
    | some item =>
      let newSet := sdel item.2 taskRunId
      let pool' := pool.map fun p =>
        if p.1 = v then (p.1, newSet) else p
      let pool'' :=
        if newSet.isEmpty then pool'.filter fun p => p.1 != v
        else pool'
      let st := { st with taskPools := aset st.taskPools key pool'' }
      let st := { st with taskRuns := aremove st.taskRuns taskRunId }
      let st := logEvent st ("task_run_destroy:" ++ taskRunId)
      let st := logEvent st ("pool_change:" ++ taskRunId)
      (.ok (), st)

/-- `destroyTaskRun` (lines 821-883): WRITE check, stop when executing,
release when (still) occupied, then `destroyTaskRunFinish`. -/
def destroyTaskRun (st : MState) (taskRunId actingAgentId : String) :
    Except MErr Unit × MState :=
  match checkPermission st taskRunId actingAgentId WRITE_ONLY_ACCESS with
  | .error e => (.error e, st)
  | .ok _ =>
    match alookup st.taskRuns taskRunId with
    | none => (.error .notFound, st)
    | some taskRun =>
      let sres :=
        if taskRun.status = .EXECUTING then
          stopTaskRun st taskRunId actingAgentId false
        else (.ok (), st)
      match sres.1 with
      | .error e => (.error e, sres.2)
      | .ok _ =>
        let cur := (alookup sres.2.taskRuns taskRunId).getD taskRun
        let rres :=
          if cur.isOccupied then
            releaseTaskRunOccupancy sres.2 taskRunId actingAgentId
          else (.ok false, sres.2)
        match rres.1 with
        | .error e => (.error e, rres.2)
        | .ok _ => destroyTaskRunFinish rres.2 taskRunId taskRun

/-- `registerAgentType` (lines 179-193). -/
def registerAgentType (st : MState) (agentKind agentType : String) :
    Except MErr Unit × MState :=
  match alookup st.registeredAgentTypes agentKind with
  | none =>
    let types2 := aset st.registeredAgentTypes agentKind [agentType]
    let st := { st with registeredAgentTypes := types2 }
    (.ok (), logEvent st ("agent_type_register:" ++ agentKind ++ ":" ++
      agentType))
  | some types =>
    if types.contains agentType then (.error .duplicateType, st)
    else
      let types2 := aset st.registeredAgentTypes agentKind (types ++ [agentType])
      let st := { st with registeredAgentTypes := types2 }
      (.ok (), logEvent st ("agent_type_register:" ++ agentKind ++ ":" ++
        agentType))

/-- `registerAdminAgent` (lines 175-177): FULL on the manager root
resource. -/
def registerAdminAgent (st : MState) (agentId : String) : MState :=
  let ac2 := acCreatePermissions st.ac TASK_MANAGER_RESOURCE agentId
    FULL_ACCESS
  { st with ac := ac2 }

/-- `WorkspaceRestorable.restore` + `restoreEntity` (manager lines
125-151): replay each persisted record through `createTaskConfig` with
`persist=false`; the first failure aborts the replay. -/
def restoreConfigs (st : MState) (recs : List OwnedTaskConfig)
    (actingAgentId : String) : Except MErr Unit × MState :=
  match recs with
  | [] => (.ok (), st)
  | r :: rest =>
    let res := createTaskConfig st r.taskConfig r.ownerId actingAgentId false
    match res.1 with
    | .error e => (.error e, res.2)
    | .ok _ => restoreConfigs res.2 rest actingAgentId

/-! ## Task Manager traces

The operations above, packaged as a step alphabet.  A trace is an
arbitrary list of operation invocations applied from the constructor
state; this over-approximates the schedules the single-threaded runtime
can produce (worker callbacks, timer ticks and the scheduler tick may
interleave between any two operations). -/

inductive MOp where
  | registerAgentType (agentKind agentType : String)
  | registerAdminAgent (agentId : String)
  | createTaskConfig (config : TaskConfig) (ownerAgentId acting : String)
      (persist : Bool)
  | updateTaskConfig (update : TaskConfigUpdate) (acting : String)
  | createTaskRun (taskKind taskType taskRunInput acting : String)
  | scheduleStartTaskRun (taskRunId acting : String)
  | processNextStartTask (now : Nat)
  | finishStartTask (taskRunId : String) (now : Nat)
  | executeTask (taskRunId acting : String) (now : Nat)
  | setTaskRunOccupied (taskRunId agentId : String) (now : Nat)
  | releaseTaskRunOccupancy (taskRunId acting : String)
  | stopTaskRun (taskRunId acting : String) (isCompleted : Bool)
  | onAgentComplete (output taskRunId agentId : String) (now startTime : Nat)
  | onAgentError (errMsg taskRunId agentId : String) (now startTime : Nat)
  | updateTaskRunInput (taskRunId taskRunInput acting : String)
  | destroyTaskRun (taskRunId acting : String)
  | restoreConfigs (recs : List OwnedTaskConfig) (acting : String)
deriving Repr

def applyMOp (st : MState) : MOp → MState
  | .registerAgentType k t => (registerAgentType st k t).2
  | .registerAdminAgent a => registerAdminAgent st a
  | .createTaskConfig c o a p => (createTaskConfig st c o a p).2
  | .updateTaskConfig u a => (updateTaskConfig st u a).2
  | .createTaskRun k t i a => (createTaskRun st k t i a).2
  | .scheduleStartTaskRun r a => (scheduleStartTaskRun st r a).2
  | .processNextStartTask now => (processNextStartTask st now).2
  | .finishStartTask r now => (finishStartTask st r now).2
  | .executeTask r a now => (executeTask st r a now).2
  | .setTaskRunOccupied r a now => (setTaskRunOccupied st r a now).2
  | .releaseTaskRunOccupancy r a => (releaseTaskRunOccupancy st r a).2
  | .stopTaskRun r a c => (stopTaskRun st r a c).2
  | .onAgentComplete o r a now s => (onAgentComplete st o r a now s).2
  | .onAgentError e r a now s => (onAgentError st e r a now s).2
  | .updateTaskRunInput r i a => (updateTaskRunP st r i a).2
  | .destroyTaskRun r a => (destroyTaskRun st r a).2
  | .restoreConfigs recs a => (restoreConfigs st recs a).2

def applyMOps (st : MState) (ops : List MOp) : MState :=
  ops.foldl applyMOp st

/-! ## Agent Registry

Embedded from `src/agents/registry/registry.ts`.  The two-level kind/type
maps are flattened to association lists keyed by the `(kind, type)` pair,
a tools factory is embedded as its list of available tool names, the
lifecycle callbacks (`onCreate`, `onDestroy`, `onAgentConfigCreated`) are
external and always succeed, and the agent-state-logger calls (file I/O)
are not part of the state. -/

structure RAgentConfig where
  agentKind : String
  agentType : String
  agentConfigId : String
  agentConfigVersion : Nat
  instructions : String
  description : String
  tools : List String
  maxPoolSize : Nat
  autoPopulatePool : Bool
deriving Repr, DecidableEq

structure RAgent where
  agentId : String
  agentKind : String
  agentType : String
  agentNum : Nat
  agentConfigVersion : Nat
  config : RAgentConfig
  inUse : Bool
deriving Repr, DecidableEq

structure RState where
  agentConfigs : List ((String × String) × List RAgentConfig)
  agents : List (String × RAgent)
  agentPools : List ((String × String) × List (Nat × List String))
  toolsFactories : List (String × List String)
deriving Repr, DecidableEq

inductive RErr where
  | notFound
  | duplicateType
  | unknownTool
  | poolExhausted
  | missingPool
  | missingFactory
deriving Repr, DecidableEq

def initRState : RState := ⟨[], [], [], []⟩

/-- Modelled from the spec: agent config id format `{kind}:{type}:v{version}`
(spec section 3; the current `agent-id.js` helper is missing from the
snapshot). -/
def agentConfigIdToValue (agentKind agentType : String)
    (agentConfigVersion : Nat) : String :=
  agentKind ++ ":" ++ agentType ++ ":v" ++ toString agentConfigVersion

/-- Modelled from the spec: agent id format `{kind}:{type}[n]:v{version}`
(spec section 3). -/
def agentIdToStringV (agentKind agentType : String) (agentNum : Nat)
    (agentConfigVersion : Nat) : String :=
  agentKind ++ ":" ++ agentType ++ "[" ++ toString agentNum ++ "]:v" ++
    toString agentConfigVersion

/-- `getAgentConfig` (registry lines 490-520): by version when one is
requested, else the latest. -/
def getAgentConfigE (st : RState) (agentKind agentType : String)
    (agentConfigVersion : Option Nat) : Except RErr RAgentConfig :=
  match alookup st.agentConfigs (agentKind, agentType) with
  | none => .error .notFound
  | some configVersions =>
    match agentConfigVersion with
    | some v =>
      match configVersions.find? fun c => c.agentConfigVersion = v with
      | none => .error .notFound
      | some configVersion => .ok configVersion
    | none =>
      match configVersions.getLast? with
      | none => .error .notFound
      | some lastConfigVersion => .ok lastConfigVersion

/-- The `created` statistic of `getPoolStatsByVersion` (registry lines
848-909): the number of pool-set members, each resolved through
`getAgent`.  The source throws on a dangling id (none arise in the states
considered); dangling ids are skipped here. -/
def rCreatedByVersion (st : RState) (agentKind agentType : String)
    (version : Nat) : Nat :=
  match alookup st.agentPools (agentKind, agentType) with
  | none => 0
  | some versions =>
    match versions.find? fun p => p.1 = version with
    | none => 0
    | some item => (item.2.filterMap fun id => alookup st.agents id).length

/-- `createAgent` (registry lines 707-760): next agent number is
`created + 1`; the new instance starts `inUse := false`, is stored with
`Map.set` (replacing any entry under the same id), and is added to the
version's pool set. -/
def createAgent (st : RState) (agentKind agentType : String)
    (agentConfigVersion : Nat) : Except RErr RAgent × RState :=
  match getAgentConfigE st agentKind agentType (some agentConfigVersion) with
  | .error e => (.error e, st)
  | .ok config =>
    match alookup st.toolsFactories agentKind with
    | none => (.error .missingFactory, st)
    | some _ =>
      let agentNum :=
        rCreatedByVersion st agentKind agentType agentConfigVersion + 1
      let agentId :=
        agentIdToStringV agentKind agentType agentNum agentConfigVersion
      let agent : RAgent :=
        { agentId := agentId
          agentKind := agentKind
          agentType := agentType
          agentNum := agentNum
          agentConfigVersion := config.agentConfigVersion
          config := config
          inUse := false }
      let st := { st with agents := aset st.agents agentId agent }
      match alookup st.agentPools (agentKind, agentType) with
      | none => (.error .missingPool, st)
      | some pool =>
        let pool' :=
          if (pool.find? fun p => p.1 = agentConfigVersion).isSome then
            pool.map fun p =>
              if p.1 = agentConfigVersion then (p.1, sadd p.2 agentId) else p
          else pool ++ [(agentConfigVersion, [agentId])]
        let pools := aset st.agentPools (agentKind, agentType) pool'
        (.ok agent, { st with agentPools := pools })

/-- `_acquireAgent` (registry lines 642-662): flip the instance to
in-use. -/
def acquireMark (st : RState) (agentId : String) : RState :=
  let agents' := supdate st.agents agentId fun a => { a with inUse := true }
  { st with agents := agents' }

/-- `acquireAgent` (registry lines 591-640): pool-disabled configs create
on demand; otherwise take the first free pool member (removing it from
the set), else create while the set is under capacity, else
*PoolExhausted*. -/
def acquireAgent (st : RState) (agentKind agentType : String)
    (version : Option Nat) : Except RErr RAgent × RState :=
  match getAgentConfigE st agentKind agentType version with
  | .error e => (.error e, st)
  | .ok config =>
    match alookup st.agentPools (agentKind, agentType) with
    | none => (.error .missingPool, st)
    | some versions =>
      match versions.find? fun p => p.1 = config.agentConfigVersion with
      | none => (.error .missingPool, st)
      | some item =>
        let pool := item.2
        if config.maxPoolSize = 0 then
          let res := createAgent st agentKind agentType
            config.agentConfigVersion
          match res.1 with
          | .error e => (.error e, res.2)
          | .ok agent =>
            (.ok { agent with inUse := true },
              acquireMark res.2 agent.agentId)
        else
          match pool.find? (fun id =>
              match alookup st.agents id with
              | some a => !a.inUse
              | none => false) with
          | some agentId =>
            let versions' := versions.map fun p =>
              if p.1 = config.agentConfigVersion then (p.1, sdel p.2 agentId)
              else p
            let pools := aset st.agentPools (agentKind, agentType) versions'
            let st := acquireMark { st with agentPools := pools } agentId
            match alookup st.agents agentId with
            | some agent => (.ok agent, st)
            | none => (.error .notFound, st)
          | none =>
            if pool.length < config.maxPoolSize then
              let res := createAgent st agentKind agentType
                config.agentConfigVersion
              match res.1 with
              | .error e => (.error e, res.2)
              | .ok agent =>
                (.ok { agent with inUse := true },
                  acquireMark res.2 agent.agentId)
            else (.error .poolExhausted, st)

/-- `destroyAgent` (registry lines 762-812): remove from the version's
pool set, splice the version entry when the set empties, and delete the
instance. -/
def destroyAgent (st : RState) (agentId : String) :
    Except RErr Unit × RState :=
  match alookup st.agents agentId with
  | none => (.error .notFound, st)
  | some agent =>
    match alookup st.agentPools (agent.agentKind, agent.agentType) with
    | none => (.error .missingPool, st)
    | some versions =>
      match versions.find? fun p => p.1 = agent.agentConfigVersion with
      | none => (.error .missingPool, st)
      | some item =>
        let newSet := sdel item.2 agentId
        let versions' := versions.map fun p =>
          if p.1 = agent.agentConfigVersion then (p.1, newSet) else p
        let versions'' :=
          if newSet.isEmpty then
            versions'.filter fun p => p.1 != agent.agentConfigVersion
          else versions'
        let pools :=
          aset st.agentPools (agent.agentKind, agent.agentType) versions''
        let st := { st with agentPools := pools }
        (.ok (), { st with agents := aremove st.agents agentId })

/-- `releaseAgent` (registry lines 669-705): pool-disabled configs are
destroyed immediately; otherwise the instance is flipped to free and
returned to the version's pool set. -/
def releaseAgent (st : RState) (agentId : String) :
    Except RErr Unit × RState :=
  match alookup st.agents agentId with
  | none => (.error .notFound, st)
  | some agent =>
    let k := agent.config.agentKind
    let t := agent.config.agentType
    let v := agent.config.agentConfigVersion
    match alookup st.agentPools (k, t) with
    | none => (.error .missingPool, st)
    | some versions =>
      match versions.find? fun p => p.1 = v with
      | none => (.error .missingPool, st)
      | some _ =>
        if agent.config.maxPoolSize = 0 then destroyAgent st agentId
        else
          let agents' := supdate st.agents agentId
            fun a => { a with inUse := false }
          let st := { st with agents := agents' }
          let versions2 := (alookup st.agentPools (k, t)).getD []
          let versions' := versions2.map fun p =>
            if p.1 = v then (p.1, sadd p.2 agentId) else p
          let pools := aset st.agentPools (k, t) versions'
          (.ok (), { st with agentPools := pools })

/-- `initializeAgentPool` (registry lines 316-338), without the
auto-population step. -/
def initializeAgentPoolR (st : RState) (agentKind agentType : String)
    (version : Nat) : RState :=
  let typePool := (alookup st.agentPools (agentKind, agentType)).getD []
  let pools :=
    aset st.agentPools (agentKind, agentType) (typePool ++ [(version, [])])
  { st with agentPools := pools }

def createAgentLoop (agentKind agentType : String) (version : Nat) :
    Nat → RState → RState
  | 0, st => st
  | n + 1, st =>
    createAgentLoop agentKind agentType version n
      (createAgent st agentKind agentType version).2

/-- `populatePool` (registry lines 347-377), invoked from
`initializeAgentPool` with errors swallowed by the `.catch`: when the
pool is enabled and auto-population requested, create
`maxPoolSize - currentPoolSize` instances. -/
def populatePool (st : RState) (agentKind agentType : String)
    (version : Nat) : RState :=
  match getAgentConfigE st agentKind agentType (some version) with
  | .error _ => st
  | .ok config =>
    if config.maxPoolSize = 0 then st
    else
      match alookup st.agentPools (agentKind, agentType) with
      | none => st
      | some versions =>
        match versions.find? fun p => p.1 = version with
        | none => st
        | some item =>
          if config.autoPopulatePool then
            createAgentLoop agentKind agentType version
              (config.maxPoolSize - item.2.length) st
          else st

/-- `registerToolsFactories` (registry lines 131-139), for one kind: a
factory is embedded as its available tool names. -/
def registerToolsFactory (st : RState) (agentKind : String)
    (tools : List String) : RState :=
  { st with toolsFactories := aset st.toolsFactories agentKind tools }

/-- `createAgentConfig` (registry lines 205-257).  Like the manager's
`createTaskConfig`, the source takes the config minus id/version and
overrides them by spreading; a tool list with no non-empty name is
replaced by the empty list, otherwise every listed tool must be known to
the kind's factory. -/
def createAgentConfig (st : RState) (config : RAgentConfig) :
    Except RErr RAgentConfig × RState :=
  if (alookup st.agentConfigs (config.agentKind, config.agentType)).isSome
  then (.error .duplicateType, st)
  else
    match alookup st.toolsFactories config.agentKind with
    | none => (.error .missingFactory, st)
    | some availableTools =>
      let hasTools := (config.tools.filter fun s => s.length ≠ 0).length ≠ 0
      let undefinedTools :=
        config.tools.filter fun tool => !(availableTools.contains tool)
      if hasTools ∧ undefinedTools.length ≠ 0 then (.error .unknownTool, st)
      else
        let tools' := if hasTools then config.tools else []
        let agentConfigId :=
          agentConfigIdToValue config.agentKind config.agentType 1
        let configVersioned := { config with
          agentConfigId := agentConfigId
          agentConfigVersion := 1
          tools := tools' }
        let cfgs := aset st.agentConfigs (config.agentKind, config.agentType)
          [configVersioned]
        let st := { st with agentConfigs := cfgs }
        let st := initializeAgentPoolR st config.agentKind config.agentType 1
        let st := populatePool st config.agentKind config.agentType 1
        (.ok configVersioned, st)

/-- The partial update accepted by `updateAgentConfig` (registry lines
259-267). -/
structure RAgentConfigUpdate where
  agentKind : String
  agentType : String
  tools : Option (List String)
  instructions : Option String
  description : Option String
  maxPoolSize : Option Nat
  autoPopulatePool : Option Bool
deriving Repr, DecidableEq

/-- `updateAgentConfig` (registry lines 259-314): validates any new tool
list, appends version `v+1`, initializes and populates the new version's
pool.  The `lookupPoolsToClean` call only schedules the background
cleanup job (a timer), which is outside the modeled alphabet. -/
def updateAgentConfig (st : RState) (update : RAgentConfigUpdate) :
    Except RErr RAgentConfig × RState :=
  match getAgentConfigE st update.agentKind update.agentType none with
  | .error e => (.error e, st)
  | .ok config =>
    let toolsCheck : Except RErr Unit :=
      match update.tools with
      | none => .ok ()
      | some tools =>
        match alookup st.toolsFactories config.agentKind with
        | none => .error .missingFactory
        | some availableTools =>
          if (tools.filter fun tool =>
              !(availableTools.contains tool)).length ≠ 0 then
            .error .unknownTool
          else .ok ()
    match toolsCheck with
    | .error e => (.error e, st)
    | .ok _ =>
      let agentConfigVersion := config.agentConfigVersion + 1
      let agentConfigId := agentConfigIdToValue config.agentKind
        config.agentType agentConfigVersion
      let newConfigVersion := { config with
        agentConfigId := agentConfigId
        agentConfigVersion := agentConfigVersion
        tools := update.tools.getD config.tools
        instructions := update.instructions.getD config.instructions
        description := update.description.getD config.description
        maxPoolSize := update.maxPoolSize.getD config.maxPoolSize
        autoPopulatePool :=
          update.autoPopulatePool.getD config.autoPopulatePool }
      let configVersions :=
        (alookup st.agentConfigs (update.agentKind, update.agentType)).getD []
      let cfgs := aset st.agentConfigs (update.agentKind, update.agentType)
        (configVersions ++ [newConfigVersion])
      let st := { st with agentConfigs := cfgs }
      let st := initializeAgentPoolR st update.agentKind update.agentType
        agentConfigVersion
      let st := populatePool st update.agentKind update.agentType
        agentConfigVersion
      (.ok newConfigVersion, st)

/-! ## Agent Registry traces -/

inductive ROp where
  | registerToolsFactory (agentKind : String) (tools : List String)
  | createAgentConfig (config : RAgentConfig)
  | updateAgentConfig (update : RAgentConfigUpdate)
  | acquireAgent (agentKind agentType : String) (version : Option Nat)
  | releaseAgent (agentId : String)
deriving Repr

def applyROp (st : RState) : ROp → RState
  | .registerToolsFactory k tools => registerToolsFactory st k tools
  | .createAgentConfig c => (createAgentConfig st c).2
  | .updateAgentConfig u => (updateAgentConfig st u).2
  | .acquireAgent k t v => (acquireAgent st k t v).2
  | .releaseAgent id => (releaseAgent st id).2

def applyROps (st : RState) (ops : List ROp) : RState :=
  ops.foldl applyROp st

/-! ## Concrete fixtures used by the claim theorems -/

def supId : String := "supervisor:boss[1]:v1"
def poetAgentId : String := "operator:poet[1]:v1"
def poemRunId : String := "task:poem[1]:v1"

def poemConfig : TaskConfig :=
  { taskKind := "task", taskType := "poem", taskConfigId := "",
    taskConfigVersion := 0, description := "write a poem",
    taskConfigInput := "topic", intervalMs := 0, runImmediately := true,
    maxRepeats := some 1, maxRetries := none, retryDelayMs := none,
    concurrencyMode := .NONE, agentKind := "operator", agentType := "poet",
    ownerAgentId := "" }

/-- A manager with the `operator/poet` agent type registered and the
supervisor enrolled as admin. -/
def baseMState : MState :=
  applyMOps initMState
    [.registerAgentType "operator" "poet", .registerAdminAgent supId]

def c3St1 : MState := (createTaskConfig baseMState poemConfig supId supId true).2
def c3CreateRun : Except MErr TaskRunR × MState :=
  createTaskRun c3St1 "task" "poem" "bee" supId
def c3St2 : MState := c3CreateRun.2
def c3St3 : MState := (processNextStartTask c3St2 10).2
def c3St4 : MState := (setTaskRunOccupied c3St3 poemRunId poetAgentId 11).2
def c3St5 : MState :=
  (onAgentComplete c3St4 "a poem about a bee" poemRunId poetAgentId 20 10).2

def c6Stopped : MState := (stopTaskRun c3St4 poemRunId supId false).2
def c6Late : Except MErr Unit × MState :=
  onAgentComplete c6Stopped "late output" poemRunId poetAgentId 99 10
def c6Released : MState :=
  (releaseTaskRunOccupancy c3St4 poemRunId poetAgentId).2
def c6LateDenied : Except MErr Unit × MState :=
  onAgentComplete c6Released "late output" poemRunId poetAgentId 99 10

def retryConfig : TaskConfig :=
  { poemConfig with
    taskType := "retry_demo", maxRepeats := some 3, maxRetries := none }
def retryRunId : String := "task:retry_demo[1]:v1"
def c1State : MState := applyMOps baseMState
  [.createTaskConfig retryConfig supId supId true,
   .createTaskRun "task" "retry_demo" "x" supId,
   .processNextStartTask 10, .setTaskRunOccupied retryRunId poetAgentId 11]
def c1AfterError : MState :=
  (onAgentError c1State "boom" retryRunId poetAgentId 20 10).2

def cappedConfig : TaskConfig :=
  { poemConfig with
    taskType := "capped", maxRepeats := some 1, maxRetries := some 5 }
def cappedRunId : String := "task:capped[1]:v1"
def c1bState : MState := applyMOps baseMState
  [.createTaskConfig cappedConfig supId supId true,
   .createTaskRun "task" "capped" "x" supId,
   .processNextStartTask 10, .setTaskRunOccupied cappedRunId poetAgentId 11,
   .onAgentError "boom" cappedRunId poetAgentId 20 10,
   .executeTask cappedRunId supId 30,
   .setTaskRunOccupied cappedRunId poetAgentId 31]
def c1bAfterError : MState :=
  (onAgentError c1bState "boom2" cappedRunId poetAgentId 40 30).2

def c9Config : TaskConfig :=
  { poemConfig with
    taskType := "niner", runImmediately := false, maxRepeats := none }
def c9RunId : String := "task:niner[1]:v1"
def c9State : MState := applyMOps baseMState
  [.createTaskConfig c9Config supId supId true,
   .createTaskRun "task" "niner" "first input" supId,
   .scheduleStartTaskRun c9RunId supId]
def c9Second : Except MErr TaskRunR × MState :=
  createTaskRun c9State "task" "niner" "second input" supId

def mallory : String := "operator:mallory[1]:v1"
def benignUpdate : TaskConfigUpdate :=
  { taskKind := "task", taskType := "poem", description := some "changed",
    intervalMs := none, taskConfigInput := none, runImmediately := none,
    maxRepeats := none, maxRetries := none, retryDelayMs := none,
    concurrencyMode := none }

def c10State : MState := (updateTaskConfig c3St1 benignUpdate supId).2

def c5Records : List OwnedTaskConfig := c10State.persisted.getD []
def c5Restored : MState := (restoreConfigs baseMState c5Records supId).2

def poetRConfig : RAgentConfig :=
  { agentKind := "operator", agentType := "poet", agentConfigId := "",
    agentConfigVersion := 0, instructions := "i", description := "d",
    tools := [], maxPoolSize := 0, autoPopulatePool := false }

/-- The number of live instances of an agent `(kind, type, version)`: the
entries of the registry's `agents` map carrying that identity. -/
def liveCount (st : RState) (agentKind agentType : String) (v : Nat) : Nat :=
  (st.agents.filter fun p =>
    p.2.agentKind == agentKind && p.2.agentType == agentType &&
      p.2.agentConfigVersion == v).length

/-- The config stored for an exact `(kind, type, version)`. -/
def configOfVersion (st : RState) (agentKind agentType : String) (v : Nat) :
    Option RAgentConfig :=
  (alookup st.agentConfigs (agentKind, agentType)).bind fun cfgs =>
    cfgs.find? fun c => c.agentConfigVersion = v

/-- Every id in any version's pool set refers to a live instance of that
`(kind, type, version)` (the free-set/live-set part of the pool
invariant). -/
def poolAgentsMatch (st : RState) : Prop :=
  ∀ kp ∈ st.agentPools, ∀ vs ∈ kp.2, ∀ id ∈ vs.2,
    ∃ ag, alookup st.agents id = some ag ∧ ag.agentKind = kp.1.1 ∧
      ag.agentType = kp.1.2 ∧ ag.agentConfigVersion = vs.1

/-- Occupancy coherence of a manager state: a run is flagged occupied
exactly when it records a current agent. -/
@[reducible] def occCoherent (st : MState) : Prop :=
  ∀ p ∈ st.taskRuns, p.2.isOccupied = p.2.currentAgentId.isSome

def c2Ops : List ROp :=
  [.registerToolsFactory "operator" [], .createAgentConfig poetRConfig,
   .acquireAgent "operator" "poet" none, .acquireAgent "operator" "poet" none]
def c2State : RState := applyROps initRState c2Ops

def c7State0 : RState := applyROps initRState
  [.registerToolsFactory "operator" [], .createAgentConfig poetRConfig]
def c7Acquire1 : Except RErr RAgent × RState :=
  acquireAgent c7State0 "operator" "poet" none
def c7Released : Except RErr Unit × RState :=
  releaseAgent c7Acquire1.2 "operator:poet[1]:v1"
def c7Acquire2 : Except RErr RAgent × RState :=
  acquireAgent c7Released.2 "operator" "poet" none

instance {e a : Type} [DecidableEq e] [DecidableEq a] :
    DecidableEq (Except e a) := fun x y =>
  match x, y with
  | .ok u, .ok v =>
    if h : u = v then .isTrue (by rw [h]) else .isFalse (by simp [h])
  | .error u, .error v =>
    if h : u = v then .isTrue (by rw [h]) else .isFalse (by simp [h])
  | .ok _, .error _ => .isFalse (by simp)
  | .error _, .ok _ => .isFalse (by simp)

def c8Cfgs : List TaskConfig :=
  (alookup c3St1.taskConfigs ("task", "poem")).getD []

def c10Cfgs : List TaskConfig :=
  (alookup c10State.taskConfigs ("task", "poem")).getD []

def c10Latest : TaskConfig :=
  (getTaskConfigE c10State "task" "poem" supId (some 1)
    READ_ONLY_ACCESS).toOption.getD poemConfig

def c4DemoOps : List MOp :=
  [.registerAgentType "operator" "poet", .registerAdminAgent supId,
   .createTaskConfig poemConfig supId supId true,
   .createTaskRun "task" "poem" "bee" supId,
   .processNextStartTask 10,
   .setTaskRunOccupied poemRunId poetAgentId 11]

def c4DemoState : MState := applyMOps initMState c4DemoOps

def someTaskRun : TaskRunR :=
  { taskKind := "task", taskType := "poem", taskRunId := poemRunId,
    taskConfigVersion := 1, taskRunNum := 1, taskRunInput := "bee",
    config := poemConfig, status := .CREATED, currentRetryAttempt := 0,
    isOccupied := false, errorCount := 0, ownerAgentId := supId,
    completedRuns := 0, history := [], currentAgentId := none,
    occupiedSince := none, lastRunAt := none, nextRunAt := none,
    intervalId := false, maxHistoryEntries := none }

def c4DemoPair : String × TaskRunR :=
  c4DemoState.taskRuns.getD 0 ("", someTaskRun)

/-- The config a persisted record becomes when `restoreEntity` replays it
through `createTaskConfig`: all content fields kept, but
`taskConfigVersion` reset to 1, `taskConfigId` recomputed for version 1,
and the owner taken from the record's annotation. -/
def resetToV1 (r : OwnedTaskConfig) : TaskConfig :=
  { r.taskConfig with
    taskConfigId :=
      taskConfigIdToValue r.taskConfig.taskKind r.taskConfig.taskType 1
    taskConfigVersion := 1
    ownerAgentId := r.ownerId }

def recKey (r : OwnedTaskConfig) : String × String :=
  (r.taskConfig.taskKind, r.taskConfig.taskType)

/-- The state after one successful replay step of `restoreEntity`
(`createTaskConfig` with `persist = false`). -/
def restoreStepState (st : MState) (r : OwnedTaskConfig) : MState :=
  let taskConfigId :=
    taskConfigIdToValue r.taskConfig.taskKind r.taskConfig.taskType 1
  let st1 := { st with
    taskConfigs := aset st.taskConfigs (recKey r) [resetToV1 r] }
  let ac2 := acCreatePermissions (acCreateResource st1.ac taskConfigId
    r.ownerId) taskConfigId r.ownerId READ_EXECUTE_ACCESS
  let st1 := { st1 with ac := ac2 }
  let st1 := logEvent st1 ("task_config_create:" ++ taskConfigId)
  initializeTaskPool st1 r.taskConfig.taskKind r.taskConfig.taskType 1

/-! ## C2 fixtures: a single-config registry driven by arbitrary
acquire/release interleavings -/

/-- The `poet` agent config submitted to `createAgentConfig`, with a
parametric pool size (`autoPopulatePool` stays off, as in the base
fixture). -/
def c2PoetConfig (mps : Nat) : RAgentConfig :=
  { poetRConfig with maxPoolSize := mps }

/-- The stored version-1 config `createAgentConfig` produces from
`c2PoetConfig mps`. -/
def c2Cfg1 (mps : Nat) : RAgentConfig :=
  { c2PoetConfig mps with
    agentConfigId := agentConfigIdToValue "operator" "poet" 1
    agentConfigVersion := 1
    tools := [] }

/-- The registry after registering the `operator` tools factory and
creating the `poet` config with pool size `mps`. -/
def c2Base (mps : Nat) : RState :=
  applyROps initRState
    [.registerToolsFactory "operator" [],
     .createAgentConfig (c2PoetConfig mps)]

/-- The alphabet of the interleavings quantified over by the pool
invariant: `acquireAgent` on the `poet` type (with an arbitrary version
request) and `releaseAgent` on an arbitrary agent id. -/
inductive C2Op where
  | acquire (version : Option Nat)
  | release (agentId : String)

def c2Apply (st : RState) : C2Op → RState
  | .acquire v => (acquireAgent st "operator" "poet" v).2
  | .release id => (releaseAgent st id).2

def c2Run (mps : Nat) (ops : List C2Op) : RState :=
  ops.foldl c2Apply (c2Base mps)

/-- The general shape of every state reachable in the C2 traces: the
fixed config and factory tables, an arbitrary instance map `A`, and the
single pool entry `vl`. -/
def c2St (mps : Nat) (A : List (String × RAgent))
    (vl : List (Nat × List String)) : RState :=
  ⟨[(("operator", "poet"), [c2Cfg1 mps])], A,
    [(("operator", "poet"), vl)], [("operator", [])]⟩

/-- The registry invariant maintained across acquire/release
interleavings on the single `poet` config: the config and factory tables
are fixed, the pool table holds the one `(operator, poet)` entry with at
most the version-1 set, every stored instance carries the `poet` identity
with its id computed from its number (which stays within `maxPoolSize`
when pooling is enabled), the instance map has no duplicate ids, and the
version-1 pool set is duplicate-free with every member resolvable. -/
structure C2Inv (mps : Nat) (st : RState) : Prop where
  configs : st.agentConfigs = [(("operator", "poet"), [c2Cfg1 mps])]
  factories : st.toolsFactories = [("operator", [])]
  pools : ∃ vl, st.agentPools = [(("operator", "poet"), vl)] ∧
    (vl = [] ∨ ∃ s, vl = [(1, s)])
  agents_ok : ∀ p ∈ st.agents, p.1 = p.2.agentId ∧
    p.2.agentId = agentIdToStringV "operator" "poet" p.2.agentNum 1 ∧
    p.2.agentKind = "operator" ∧ p.2.agentType = "poet" ∧
    p.2.agentConfigVersion = 1 ∧ p.2.config = c2Cfg1 mps ∧
    1 ≤ p.2.agentNum ∧ (1 ≤ mps → p.2.agentNum ≤ mps)
  keys_nodup : (st.agents.map Prod.fst).Nodup
  pool_nodup : ∀ s, st.agentPools = [(("operator", "poet"), [(1, s)])] →
    s.Nodup
  pool_live : ∀ s, st.agentPools = [(("operator", "poet"), [(1, s)])] →
    ∀ id ∈ s, (alookup st.agents id).isSome = true

/-! ## Lemmas about the container embeddings -/

theorem alookup_aset_self {κ α : Type} [DecidableEq κ]
    (l : List (κ × α)) (k : κ) (v : α) : alookup (aset l k v) k = some v := by
  induction l with
  | nil => simp [aset, alookup]
  | cons p rest ih =>
    by_cases h : p.1 = k
    · simp [aset, alookup, h]
    · simp [aset, alookup, h, ih]

theorem alookup_aset_ne {κ α : Type} [DecidableEq κ]
    (l : List (κ × α)) (k k' : κ) (v : α) (h : k ≠ k') :
    alookup (aset l k v) k' = alookup l k' := by
  induction l with
  | nil => simp [aset, alookup, h]
  | cons p rest ih =>
    by_cases hp : p.1 = k
    · simp [aset, alookup, hp, h]
    · simp only [aset, if_neg hp]
      by_cases hp' : p.1 = k'
      · simp [alookup, hp']
      · simp [alookup, hp', ih]

theorem mem_aset {κ α : Type} [DecidableEq κ]
    {l : List (κ × α)} {k : κ} {v : α} {p : κ × α}
    (h : p ∈ aset l k v) : p = (k, v) ∨ p ∈ l := by
  induction l with
  | nil => simpa [aset] using h
  | cons q rest ih =>
    by_cases hq : q.1 = k
    · simp only [aset, if_pos hq, List.mem_cons] at h
      rcases h with h | h
      · left; rw [h, hq]
      · right; exact List.mem_cons_of_mem _ h
    · simp only [aset, if_neg hq, List.mem_cons] at h
      rcases h with h | h
      · right; exact h ▸ List.mem_cons_self _ _
      · rcases ih h with h' | h'
        · exact Or.inl h'
        · exact Or.inr (List.mem_cons_of_mem _ h')

theorem mem_supdate {κ α : Type} [DecidableEq κ]
    {l : List (κ × α)} {key : κ} {f : α → α} {p : κ × α}
    (h : p ∈ supdate l key f) : ∃ q ∈ l, p = q ∨ p = (q.1, f q.2) := by
  rcases List.mem_map.mp h with ⟨q, hq, hpq⟩
  refine ⟨q, hq, ?_⟩
  by_cases hk : q.1 = key
  · right; rw [← hpq]; simp [hk]
  · left; rw [← hpq]; simp [hk]

theorem mem_aremove {κ α : Type} [DecidableEq κ]
    {l : List (κ × α)} {key : κ} {p : κ × α}
    (h : p ∈ aremove l key) : p ∈ l := by
  induction l with
  | nil => simp [aremove] at h
  | cons q rest ih =>
    by_cases hq : q.1 = key
    · simp only [aremove, if_pos hq] at h
      exact List.mem_cons_of_mem _ h
    · simp only [aremove, if_neg hq, List.mem_cons] at h
      rcases h with h | h
      · exact h ▸ List.mem_cons_self _ _
      · exact List.mem_cons_of_mem _ (ih h)

theorem alookup_mem {κ α : Type} [DecidableEq κ]
    {l : List (κ × α)} {k : κ} {v : α}
    (h : alookup l k = some v) : (k, v) ∈ l := by
  induction l with
  | nil => simp [alookup] at h
  | cons p rest ih =>
    by_cases hp : p.1 = k
    · simp only [alookup, if_pos hp, Option.some.injEq] at h
      have hpv : p = (k, v) := by
        cases p
        simp_all
      exact hpv ▸ List.mem_cons_self _ _
    · simp only [alookup, if_neg hp] at h
      exact List.mem_cons_of_mem _ (ih h)

/-! ## Claim theorems -/

/-- C1: evaluating the embedded `onAgentError` at the failing input.  A
run whose config has `maxRetries = null` but `maxRepeats = 3` still gets
a retry after its first failure (`currentRetryAttempt` becomes 1 and the
run is not stopped), although the claim says `maxRetries` is the cap and
`maxRetries = null` means no retry; and a run with `maxRetries = 5` but
`maxRepeats = 1` is stopped at its second failure although five retries
remain.  The retry branch caps on `config.maxRepeats`
(`manager.ts` lines 1155-1163). -/
theorem C1_retry_cap_is_maxRepeats :
    ((alookup c1AfterError.taskRuns retryRunId).map fun r =>
      (r.config.maxRetries, r.config.maxRepeats, r.currentRetryAttempt,
        r.status)) = some (none, some 3, 1, .EXECUTING) ∧
    ((alookup c1bAfterError.taskRuns cappedRunId).map fun r =>
      (r.config.maxRetries, r.config.maxRepeats, r.currentRetryAttempt,
        r.status)) = some (some 5, some 1, 1, .STOPPED) := by decide

/-- C3, counterexample: in the immediate one-shot scenario
(`runImmediately = true`, `intervalMs = 0`, `maxRepeats = 1`) the run's
final status after the worker's successful completion is STOPPED, not
COMPLETED as the claim states (`onAgentComplete` calls `stopTaskRun`
without the `isCompleted` flag, which defaults to `false`). -/
theorem C3_counterexample :
    (alookup c3St5.taskRuns poemRunId).map TaskRunR.status = some .STOPPED ∧
    (alookup c3St5.taskRuns poemRunId).map TaskRunR.status ≠
      some .COMPLETED := by decide

/-- C3, amended: in that scenario the run passes through CREATED (the
record built by `createTaskRun`), SCHEDULED (stored state after
`createTaskRun`), EXECUTING (after the scheduler tick), and ends STOPPED
with `completedRuns = 1` and exactly one history entry with
`terminalStatus = COMPLETED`, `runNumber = 1`, `retryAttempt = 0`. -/
theorem C3_amended_behaviour :
    c3CreateRun.1.toOption.map TaskRunR.status = some .CREATED ∧
    (alookup c3St2.taskRuns poemRunId).map TaskRunR.status =
      some .SCHEDULED ∧
    (alookup c3St3.taskRuns poemRunId).map TaskRunR.status =
      some .EXECUTING ∧
    ((alookup c3St5.taskRuns poemRunId).map fun r =>
      (r.status, r.completedRuns,
        r.history.map fun h => (h.terminalStatus, h.runNumber,
          h.retryAttempt))) = some (.STOPPED, 1, [(.COMPLETED, 1, 0)]) := by
  decide

/-- C4, counterexample: immediately after the scheduler tick marks the
run EXECUTING and before any worker is acquired, the run is EXECUTING
with `isOccupied = false` and no `currentAgentId` — a reachable state
refuting the claimed equivalence between EXECUTING and occupancy. -/
theorem C4_counterexample :
    ((alookup c3St3.taskRuns poemRunId).map fun r =>
      (r.status, r.isOccupied, r.currentAgentId)) =
      some (.EXECUTING, false, none) := by decide

/-- C6, counterexample: after `stopTaskRun` by the owner sets the run
STOPPED (with `completedRuns = 0` and empty history), a late
`onAgentComplete` from the occupying agent succeeds and mutates the run:
`completedRuns` becomes 1 and a history entry is appended, contradicting
the claim that a late callback never mutates a terminal run. -/
theorem C6_counterexample :
    ((alookup c6Stopped.taskRuns poemRunId).map fun r =>
      (r.status, r.completedRuns, r.history.length)) =
      some (.STOPPED, 0, 0) ∧
    c6Late.1 = .ok () ∧
    ((alookup c6Late.2.taskRuns poemRunId).map fun r =>
      (r.status, r.completedRuns, r.history.length)) =
      some (.STOPPED, 1, 1) := by decide

/-- C6, amended: a late completion after a stop performed by a different
principal still increments `completedRuns` and appends a COMPLETED
history entry while the status stays STOPPED (the inner `stopTaskRun` is
a no-op on an already-STOPPED run); the late callback is ignored — it
fails with *PermissionDenied* and leaves the state unchanged — only when
the occupancy release was performed with the agent itself as acting
identity (as the occupancy timeout does), which removed the agent's
permissions on the run. -/
theorem C6_amended_behaviour :
    ((alookup c6Late.2.taskRuns poemRunId).map fun r =>
      (r.status, r.completedRuns,
        r.history.map fun h => (h.terminalStatus, h.output))) =
      some (.STOPPED, 1, [(.COMPLETED, some "late output")]) ∧
    c6LateDenied.1 = .error .permissionDenied ∧
    c6LateDenied.2 = c6Released := by decide

/-- C9: evaluating `createTaskRun` at the failing input.  With one run
(`taskRunNum = 1`) parked as SCHEDULED in the version's pool, the
`created` statistic counts only CREATED-status runs, so the next
`createTaskRun` generates `taskRunNum = 1` again and its `Map.set`
replaces the existing entry: the run map still holds a single run, now
carrying the second input. -/
theorem C9_run_number_collision :
    ((alookup c9State.taskRuns c9RunId).map fun r =>
      (r.taskRunNum, r.status, r.taskRunInput)) =
      some (1, .SCHEDULED, "first input") ∧
    (c9Second.1.toOption.map fun r => (r.taskRunId, r.taskRunNum)) =
      some (c9RunId, 1) ∧
    c9Second.2.taskRuns.length = 1 ∧
    ((alookup c9Second.2.taskRuns c9RunId).map fun r => r.taskRunInput) =
      some "second input" := by decide

/-- C2, counterexample: for a registered config with `maxPoolSize = 0`,
two `acquireAgent` calls without a release leave two live instances of
version 1 — more than the config's `maxPoolSize` — refuting the claimed
bound for that config. -/
theorem C2_counterexample :
    (configOfVersion c2State "operator" "poet" 1).map
      RAgentConfig.maxPoolSize = some 0 ∧
    liveCount c2State "operator" "poet" 1 = 2 := by decide

/-- C7, counterexample: with `maxPoolSize = 0`, after one
acquire/release cycle the next `acquireAgent` call does not create a
fresh instance on demand — it fails, because destroying the released
instance emptied and spliced away the version's pool record. -/
theorem C7_counterexample :
    c7Acquire2.1 = .error .missingPool ∧ c7Acquire2.2 = c7Released.2 := by
  decide

/-- C7, amended: with `maxPoolSize = 0` the first acquire creates a fresh
instance on demand (never taken from a free set: the instance sits in the
pool set only while in use), and release destroys the instance
immediately; but that destruction also splices away the emptied version
pool record, so an acquire performed after a release fails with a
missing-pool error instead of creating on demand. -/
theorem C7_amended_behaviour :
    (c7Acquire1.1.toOption.map fun a => (a.agentId, a.inUse)) =
      some ("operator:poet[1]:v1", true) ∧
    (c7Acquire1.2.agents.map fun p => (p.1, p.2.inUse)) =
      [("operator:poet[1]:v1", true)] ∧
    alookup c7Acquire1.2.agentPools ("operator", "poet") =
      some [(1, ["operator:poet[1]:v1"])] ∧
    c7Released.1 = .ok () ∧
    c7Released.2.agents = [] ∧
    alookup c7Released.2.agentPools ("operator", "poet") = some [] ∧
    c7Acquire2.1 = .error .missingPool := by decide

/-- C8: when the acting agent lacks READ+WRITE permission on the current
(latest) config id, `updateTaskConfig` fails with *PermissionDenied* and
has no side effects: the state it returns is the input state, so no new
config version is added, no event is appended, no persistence write
happens, and the in-memory config set is unchanged. -/
theorem C8_update_denied_atomic (st : MState) (upd : TaskConfigUpdate)
    (acting : String) (cfgs : List TaskConfig) (last : TaskConfig)
    (hc : alookup st.taskConfigs (upd.taskKind, upd.taskType) = some cfgs)
    (hl : cfgs.getLast? = some last)
    (hperm : acHasPermission st.ac last.taskConfigId acting
      READ_WRITE_ACCESS = false) :
    updateTaskConfig st upd acting = (.error .permissionDenied, st) := by
  unfold updateTaskConfig getTaskConfigE
  rw [hc]
  simp [hl, hperm]

/-- C8, witness: a non-owner, non-admin agent's update attempt on the
`poem` config is denied and leaves the manager state untouched. -/
theorem C8_witness :
    updateTaskConfig c3St1 benignUpdate mallory =
      (.error .permissionDenied, c3St1) :=
  C8_update_denied_atomic c3St1 benignUpdate mallory c8Cfgs
    (c8Cfgs.getLast?.getD poemConfig) (by decide) (by decide) (by decide)

/-- C10: for any stored version `v`, `getTaskConfig` called with the
explicit version argument returns exactly what the call without a
version returns — the latest version's config — and the permission
decision is made against the latest version's config id: when the acting
agent lacks permission on the latest id the call is denied even though
version `v` was requested. -/
theorem C10_explicit_version_returns_latest (st : MState)
    (taskKind taskType acting : String) (v : Nat) (perms : Perm)
    (cfgs : List TaskConfig)
    (hc : alookup st.taskConfigs (taskKind, taskType) = some cfgs)
    (hv : (cfgs.find? fun c => c.taskConfigVersion = v).isSome) :
    getTaskConfigE st taskKind taskType acting (some v) perms =
      getTaskConfigE st taskKind taskType acting none perms ∧
    (∀ c, getTaskConfigE st taskKind taskType acting (some v) perms =
      .ok c → cfgs.getLast? = some c) ∧
    (∀ last, cfgs.getLast? = some last →
      acHasPermission st.ac last.taskConfigId acting perms = false →
      getTaskConfigE st taskKind taskType acting (some v) perms =
        .error .permissionDenied) := by
  unfold getTaskConfigE
  rw [hc]
  simp [hv]
  refine ⟨?_, ?_⟩
  · intro c h
    revert h
    match h2 : cfgs.getLast? with
    | none => simp
    | some last =>
      by_cases hp : acHasPermission st.ac last.taskConfigId acting perms
      · simp [hp]
      · simp [hp]
  · intro last h2 hp
    rw [h2]
    simp [hp]

/-- C10, witness: in the two-version `poem` state, requesting version 1
explicitly returns the same thing as requesting no version (the latest,
version 2 config). -/
theorem C10_witness :
    (getTaskConfigE c10State "task" "poem" supId (some 1)
        READ_ONLY_ACCESS =
      getTaskConfigE c10State "task" "poem" supId none READ_ONLY_ACCESS) ∧
    c10Cfgs.getLast? = some c10Latest :=
  ⟨(C10_explicit_version_returns_latest c10State "task" "poem" supId 1
      READ_ONLY_ACCESS c10Cfgs (by decide) (by decide)).1,
   (C10_explicit_version_returns_latest c10State "task" "poem" supId 1
      READ_ONLY_ACCESS c10Cfgs (by decide) (by decide)).2.1 c10Latest
     (by decide)⟩

/-! ## Occupancy coherence: preservation lemmas -/

theorem occCoh_mem_supdate {l : List (String × TaskRunR)} {key : String}
    {f : TaskRunR → TaskRunR}
    (h : ∀ p ∈ l, p.2.isOccupied = p.2.currentAgentId.isSome)
    (hf : ∀ r : TaskRunR, r.isOccupied = r.currentAgentId.isSome →
      (f r).isOccupied = (f r).currentAgentId.isSome) :
    ∀ p ∈ supdate l key f, p.2.isOccupied = p.2.currentAgentId.isSome := by
  intro p hp
  rcases mem_supdate hp with ⟨q, hq, hpq | hpq⟩
  · rw [hpq]
    exact h q hq
  · rw [hpq]
    exact hf q.2 (h q hq)

theorem occCoh_mem_aset {l : List (String × TaskRunR)} {key : String}
    {v : TaskRunR}
    (h : ∀ p ∈ l, p.2.isOccupied = p.2.currentAgentId.isSome)
    (hv : v.isOccupied = v.currentAgentId.isSome) :
    ∀ p ∈ aset l key v, p.2.isOccupied = p.2.currentAgentId.isSome := by
  intro p hp
  rcases mem_aset hp with hpv | hp2
  · rw [hpv]
    exact hv
  · exact h p hp2

theorem occCoh_mem_aremove {l : List (String × TaskRunR)} {key : String}
    (h : ∀ p ∈ l, p.2.isOccupied = p.2.currentAgentId.isSome) :
    ∀ p ∈ aremove l key, p.2.isOccupied = p.2.currentAgentId.isSome :=
  fun p hp => h p (mem_aremove hp)

theorem occCoherent_updateTaskRunState {st : MState} {taskRunId : String}
    {f : TaskRunR → TaskRunR} {b : Bool} (h : occCoherent st)
    (hf : ∀ r : TaskRunR, r.isOccupied = r.currentAgentId.isSome →
      (f r).isOccupied = (f r).currentAgentId.isSome) :
    occCoherent (updateTaskRunState st taskRunId f b) := by
  unfold occCoherent updateTaskRunState logEvent
  cases b <;> simp only [if_true, if_false, Bool.false_eq_true, ite_self]
  all_goals exact occCoh_mem_supdate h hf

theorem occCoherent_registerAgentType {st : MState} {k t : String}
    (h : occCoherent st) : occCoherent (registerAgentType st k t).2 := by
  unfold registerAgentType
  split
  · exact h
  · split
    · exact h
    · exact h

theorem occCoherent_registerAdminAgent {st : MState} {a : String}
    (h : occCoherent st) : occCoherent (registerAdminAgent st a) := h

theorem occCoherent_createTaskConfig {st : MState} {c : TaskConfig}
    {o a : String} {p : Bool} (h : occCoherent st) :
    occCoherent (createTaskConfig st c o a p).2 := by
  unfold createTaskConfig
  split
  · exact h
  · split
    · exact h
    · split
      · exact h
      · split <;> exact h

theorem occCoherent_updateTaskConfig {st : MState} {u : TaskConfigUpdate}
    {a : String} (h : occCoherent st) :
    occCoherent (updateTaskConfig st u a).2 := by
  unfold updateTaskConfig
  split
  · exact h
  · exact h

theorem occCoherent_scheduleStartTaskRun {st : MState} {r a : String}
    (h : occCoherent st) : occCoherent (scheduleStartTaskRun st r a).2 := by
  unfold scheduleStartTaskRun
  split
  · exact h
  · split
    · exact h
    · split
      · exact h
      · split
        · exact h
        · exact occCoherent_updateTaskRunState h fun r hr => hr

theorem occCoherent_createTaskRun {st : MState} {k t i a : String}
    (h : occCoherent st) : occCoherent (createTaskRun st k t i a).2 := by
  unfold createTaskRun
  split
  · exact h
  · split
    · exact h
    · split
      · exact h
      · split
        · exact h
        · dsimp only
          split
          · exact occCoh_mem_aset h (by rfl)
          · split
            · split
              · exact occCoherent_scheduleStartTaskRun
                  (occCoh_mem_aset h (by rfl))
              · exact occCoherent_scheduleStartTaskRun
                  (occCoh_mem_aset h (by rfl))
            · exact occCoh_mem_aset h (by rfl)

theorem occCoherent_executeTask {st : MState} {r a : String} {now : Nat}
    (h : occCoherent st) : occCoherent (executeTask st r a now).2 := by
  unfold executeTask
  split
  · exact h
  · split
    · exact h
    · split
      · exact h
      · exact occCoherent_updateTaskRunState h fun r hr => hr

theorem occCoh_supdate_state {st : MState} {key : String}
    {f : TaskRunR → TaskRunR} (h : occCoherent st)
    (hf : ∀ r : TaskRunR, r.isOccupied = r.currentAgentId.isSome →
      (f r).isOccupied = (f r).currentAgentId.isSome) :
    occCoherent { st with taskRuns := supdate st.taskRuns key f } :=
  occCoh_mem_supdate h hf

theorem occCoherent_processNextStartTask {st : MState} {now : Nat}
    (h : occCoherent st) : occCoherent (processNextStartTask st now).2 := by
  unfold processNextStartTask
  split
  · exact h
  · dsimp only
    split
    · exact h
    · split
      · exact h
      · split
        · exact occCoherent_executeTask h
        · exact h

theorem occCoherent_finishStartTask {st : MState} {r : String} {now : Nat}
    (h : occCoherent st) : occCoherent (finishStartTask st r now).2 := by
  unfold finishStartTask
  split
  · exact h
  · split
    · apply occCoherent_updateTaskRunState
      · exact occCoh_supdate_state h fun q hq => hq
      · exact fun q hq => hq
    · exact h

theorem occCoherent_setTaskRunOccupied {st : MState} {r a : String}
    {now : Nat} (h : occCoherent st) :
    occCoherent (setTaskRunOccupied st r a now).2 := by
  unfold setTaskRunOccupied
  dsimp only
  split
  · exact h
  · split
    · exact h
    · exact occCoherent_updateTaskRunState h fun q hq => rfl

theorem occCoherent_releaseTaskRunOccupancy {st : MState} {r a : String}
    (h : occCoherent st) :
    occCoherent (releaseTaskRunOccupancy st r a).2 := by
  unfold releaseTaskRunOccupancy
  split
  · exact h
  · split
    · exact h
    · exact occCoherent_updateTaskRunState h fun q hq => rfl

theorem occCoherent_stopTaskRun {st : MState} {r a : String} {c : Bool}
    (h : occCoherent st) : occCoherent (stopTaskRun st r a c).2 := by
  unfold stopTaskRun
  split
  · exact h
  · split
    · exact h
    · split
      · exact h
      · rename_i taskRun heq hstop
        dsimp only
        by_cases hInt : taskRun.intervalId = true <;>
          by_cases hOcc : taskRun.isOccupied = true <;>
            simp only [hInt, hOcc, if_true, if_false, ite_true, ite_false,
              Bool.false_eq_true] <;>
            (try split) <;>
            (try dsimp only) <;>
            first
            | exact h
            | exact occCoh_supdate_state h fun q hq => hq
            | exact occCoherent_releaseTaskRunOccupancy h
            | exact occCoherent_releaseTaskRunOccupancy
                (occCoh_supdate_state h fun q hq => hq)
            | (refine occCoherent_updateTaskRunState ?_ fun q hq => hq
               first
               | exact h
               | exact occCoh_supdate_state h fun q hq => hq
               | exact occCoherent_releaseTaskRunOccupancy h
               | exact occCoherent_releaseTaskRunOccupancy
                   (occCoh_supdate_state h fun q hq => hq))

theorem occCoherent_addHistoryEntry {st : MState} {r a : String}
    {entry : TaskRunHistoryEntry} (h : occCoherent st) :
    occCoherent (addHistoryEntry st r a entry).2 := by
  unfold addHistoryEntry
  split
  · exact h
  · apply occCoh_mem_supdate h
    exact fun q hq => hq

theorem occCoherent_onAgentComplete {st : MState} {o r a : String}
    {now startTime : Nat} (h : occCoherent st) :
    occCoherent (onAgentComplete st o r a now startTime).2 := by
  unfold onAgentComplete
  split
  · exact h
  · dsimp only
    have h1 : occCoherent (updateTaskRunState st r
        (fun q => { q with completedRuns := q.completedRuns + 1 }) false) :=
      occCoherent_updateTaskRunState h fun q hq => hq
    split
    · exact occCoherent_addHistoryEntry h1
    · split
      · exact occCoherent_stopTaskRun (occCoherent_addHistoryEntry h1)
      · split
        · exact occCoherent_releaseTaskRunOccupancy
            (occCoherent_addHistoryEntry h1)
        · exact occCoherent_releaseTaskRunOccupancy
            (occCoherent_addHistoryEntry h1)

theorem occCoherent_onAgentError {st : MState} {e r a : String}
    {now startTime : Nat} (h : occCoherent st) :
    occCoherent (onAgentError st e r a now startTime).2 := by
  unfold onAgentError
  split
  · exact h
  · dsimp only
    have h1 : occCoherent (updateTaskRunState st r
        (fun q => { q with
          errorCount := q.errorCount + 1
          completedRuns := q.completedRuns + 1 }) false) :=
      occCoherent_updateTaskRunState h fun q hq => hq
    split
    · exact occCoherent_addHistoryEntry h1
    · split
      · exact occCoherent_releaseTaskRunOccupancy
          (occCoherent_addHistoryEntry h1)
      · split
        · split
          · exact occCoherent_stopTaskRun (occCoherent_releaseTaskRunOccupancy
              (occCoherent_addHistoryEntry h1))
          · exact occCoherent_updateTaskRunState
              (occCoherent_releaseTaskRunOccupancy
                (occCoherent_addHistoryEntry h1)) fun q hq => hq
        · exact occCoherent_releaseTaskRunOccupancy
            (occCoherent_addHistoryEntry h1)

theorem occCoherent_updateTaskRunP {st : MState} {r i a : String}
    (h : occCoherent st) : occCoherent (updateTaskRunP st r i a).2 := by
  unfold updateTaskRunP
  split
  · exact h
  · exact occCoherent_updateTaskRunState h fun q hq => hq

theorem occCoherent_destroyTaskRunFinish {st : MState} {r : String}
    {taskRun : TaskRunR} (h : occCoherent st) :
    occCoherent (destroyTaskRunFinish st r taskRun).2 := by
  unfold destroyTaskRunFinish
  dsimp only
  split
  · exact h
  · split
    · exact h
    · intro p hp
      exact h p (mem_aremove hp)

theorem occCoherent_destroyTaskRun {st : MState} {r a : String}
    (h : occCoherent st) : occCoherent (destroyTaskRun st r a).2 := by
  unfold destroyTaskRun
  split
  · exact h
  · split
    · exact h
    · dsimp only
      split <;> (try split) <;> (try split) <;> (try split) <;>
        first
        | exact h
        | exact occCoherent_stopTaskRun h
        | exact occCoherent_releaseTaskRunOccupancy h
        | exact occCoherent_releaseTaskRunOccupancy
            (occCoherent_stopTaskRun h)
        | exact occCoherent_destroyTaskRunFinish h
        | exact occCoherent_destroyTaskRunFinish (occCoherent_stopTaskRun h)
        | exact occCoherent_destroyTaskRunFinish
            (occCoherent_releaseTaskRunOccupancy h)
        | exact occCoherent_destroyTaskRunFinish
            (occCoherent_releaseTaskRunOccupancy (occCoherent_stopTaskRun h))

theorem occCoherent_restoreConfigs {recs : List OwnedTaskConfig}
    {st : MState} {a : String} (h : occCoherent st) :
    occCoherent (restoreConfigs st recs a).2 := by
  induction recs generalizing st with
  | nil => exact h
  | cons r rest ih =>
    unfold restoreConfigs
    dsimp only
    split
    · exact occCoherent_createTaskConfig h
    · exact ih (occCoherent_createTaskConfig h)

theorem occCoherent_applyMOp {st : MState} (op : MOp)
    (h : occCoherent st) : occCoherent (applyMOp st op) := by
  cases op with
  | registerAgentType k t => exact occCoherent_registerAgentType h
  | registerAdminAgent a => exact occCoherent_registerAdminAgent h
  | createTaskConfig c o a p => exact occCoherent_createTaskConfig h
  | updateTaskConfig u a => exact occCoherent_updateTaskConfig h
  | createTaskRun k t i a => exact occCoherent_createTaskRun h
  | scheduleStartTaskRun r a => exact occCoherent_scheduleStartTaskRun h
  | processNextStartTask now => exact occCoherent_processNextStartTask h
  | finishStartTask r now => exact occCoherent_finishStartTask h
  | executeTask r a now => exact occCoherent_executeTask h
  | setTaskRunOccupied r a now => exact occCoherent_setTaskRunOccupied h
  | releaseTaskRunOccupancy r a =>
    exact occCoherent_releaseTaskRunOccupancy h
  | stopTaskRun r a c => exact occCoherent_stopTaskRun h
  | onAgentComplete o r a now s => exact occCoherent_onAgentComplete h
  | onAgentError e r a now s => exact occCoherent_onAgentError h
  | updateTaskRunInput r i a => exact occCoherent_updateTaskRunP h
  | destroyTaskRun r a => exact occCoherent_destroyTaskRun h
  | restoreConfigs recs a => exact occCoherent_restoreConfigs h

/-- C4, amended: at every state reachable by any sequence of the modeled
Task Manager operations from the constructor state, occupancy is
coherent: a run's `isOccupied` flag is set exactly when its
`currentAgentId` is set.  (The claimed equivalence with the EXECUTING
status does not hold; see the counterexample.) -/
theorem C4_amended_occupancy (ops : List MOp) :
    occCoherent (applyMOps initMState ops) := by
  have hgen : ∀ (l : List MOp) (st : MState), occCoherent st →
      occCoherent (applyMOps st l) := by
    intro l
    induction l with
    | nil => exact fun st h => h
    | cons op rest ih =>
      exact fun st h => ih (applyMOp st op) (occCoherent_applyMOp op h)
  refine hgen ops initMState ?_
  intro p hp
  simp [initMState] at hp

/-- C4, witness: the occupancy-coherence theorem evaluated on the
immediate one-shot demo trace at its stored run. -/
theorem C4_amended_occupancy_witness :
    c4DemoPair.2.isOccupied = c4DemoPair.2.currentAgentId.isSome :=
  C4_amended_occupancy c4DemoOps c4DemoPair (by decide)

theorem aset_eq_append {κ α : Type} [DecidableEq κ]
    {l : List (κ × α)} {k : κ} {v : α} (h : alookup l k = none) :
    aset l k v = l ++ [(k, v)] := by
  induction l with
  | nil => rfl
  | cons p rest ih =>
    by_cases hp : p.1 = k
    · simp [alookup, hp] at h
    · have h2 : alookup rest k = none := by simpa [alookup, hp] using h
      simp [aset, hp, ih h2]

theorem alookup_append_left_none {κ α : Type} [DecidableEq κ]
    {l m : List (κ × α)} {k : κ} (h : alookup l k = none) :
    alookup (l ++ m) k = alookup m k := by
  induction l with
  | nil => rfl
  | cons p rest ih =>
    by_cases hp : p.1 = k
    · simp [alookup, hp] at h
    · simp only [List.cons_append, alookup, if_neg hp]
      refine ih ?_
      simpa [alookup, hp] using h

theorem acHasPermission_createResource_ne {ac : ACState}
    {rid o res p : String} {q : Perm} (h : rid ≠ res) :
    acHasPermission (acCreateResource ac rid o) res p q =
      acHasPermission ac res p q := by
  unfold acHasPermission acCreateResource
  rw [alookup_aset_ne _ _ _ _ h]

theorem acHasPermission_createPermissions_ne {ac : ACState}
    {rid pid res p : String} {perm q : Perm} (h : rid ≠ res) :
    acHasPermission (acCreatePermissions ac rid pid perm) res p q =
      acHasPermission ac res p q := by
  unfold acHasPermission acCreatePermissions
  rw [alookup_aset_ne]
  intro hc
  exact h (congrArg Prod.fst hc)

theorem createTaskConfig_restore_step (st : MState) (r : OwnedTaskConfig)
    (acting : String)
    (hdup : alookup st.taskConfigs (recKey r) = none)
    (hreg : ((alookup st.registeredAgentTypes
      r.taskConfig.agentKind).getD []).contains r.taskConfig.agentType =
      true)
    (hperm : acHasPermission st.ac TASK_MANAGER_RESOURCE acting
      WRITE_ONLY_ACCESS = true) :
    createTaskConfig st r.taskConfig r.ownerId acting false =
      (.ok (resetToV1 r), restoreStepState st r) := by
  unfold createTaskConfig checkPermission
  rw [hperm]
  have hdup2 : (alookup st.taskConfigs
      (r.taskConfig.taskKind, r.taskConfig.taskType)).isSome = false := by
    rw [show (r.taskConfig.taskKind, r.taskConfig.taskType) = recKey r
      from rfl, hdup]
    rfl
  rw [hdup2]
  simp only [Bool.false_eq_true, if_false, hreg, Bool.not_true, if_true]
  rfl

theorem restoreStepState_taskConfigs (st : MState) (r : OwnedTaskConfig) :
    (restoreStepState st r).taskConfigs =
      aset st.taskConfigs (recKey r) [resetToV1 r] := rfl

theorem restoreStepState_registeredAgentTypes (st : MState)
    (r : OwnedTaskConfig) :
    (restoreStepState st r).registeredAgentTypes =
      st.registeredAgentTypes := rfl

theorem restoreStepState_ac (st : MState) (r : OwnedTaskConfig) :
    (restoreStepState st r).ac =
      acCreatePermissions
        (acCreateResource st.ac
          (taskConfigIdToValue r.taskConfig.taskKind r.taskConfig.taskType 1)
          r.ownerId)
        (taskConfigIdToValue r.taskConfig.taskKind r.taskConfig.taskType 1)
        r.ownerId READ_EXECUTE_ACCESS := rfl

/-- C5, amended: replaying the persisted records on a Task Manager that
holds none of their types yields exactly one stored config per record,
identical to the persisted config in every content field and carrying the
persisted owner annotation, but with `taskConfigVersion` reset to 1 and
`taskConfigId` recomputed for version 1 (`createTaskConfig` hardcodes
version 1 when `restoreEntity` replays a record). -/
theorem C5_amended_roundtrip (recs : List OwnedTaskConfig) (st : MState)
    (acting : String)
    (hdisj : ∀ r ∈ recs, alookup st.taskConfigs (recKey r) = none)
    (hnodup : (recs.map recKey).Nodup)
    (hreg : ∀ r ∈ recs, ((alookup st.registeredAgentTypes
      r.taskConfig.agentKind).getD []).contains r.taskConfig.agentType =
      true)
    (hperm : acHasPermission st.ac TASK_MANAGER_RESOURCE acting
      WRITE_ONLY_ACCESS = true)
    (hroot : ∀ r ∈ recs, taskConfigIdToValue r.taskConfig.taskKind
      r.taskConfig.taskType 1 ≠ TASK_MANAGER_RESOURCE) :
    (restoreConfigs st recs acting).1 = .ok () ∧
    (restoreConfigs st recs acting).2.taskConfigs =
      st.taskConfigs ++ recs.map fun r => (recKey r, [resetToV1 r]) := by
  induction recs generalizing st with
  | nil => exact ⟨rfl, by simp [restoreConfigs]⟩
  | cons r rest ih =>
    have hmemr : r ∈ r :: rest := List.mem_cons_self _ _
    have hstep := createTaskConfig_restore_step st r acting
      (hdisj r hmemr) (hreg r hmemr) hperm
    have hconf : (restoreStepState st r).taskConfigs =
        st.taskConfigs ++ [(recKey r, [resetToV1 r])] := by
      rw [restoreStepState_taskConfigs, aset_eq_append (hdisj r hmemr)]
    have hke : ∀ q ∈ rest, recKey q ≠ recKey r := by
      intro q hq he
      exact (List.nodup_cons.mp hnodup).1
        (he ▸ List.mem_map_of_mem recKey hq)
    have hdisj2 : ∀ q ∈ rest,
        alookup (restoreStepState st r).taskConfigs (recKey q) = none := by
      intro q hq
      rw [hconf,
        alookup_append_left_none (hdisj q (List.mem_cons_of_mem _ hq))]
      simp [alookup, Ne.symm (hke q hq)]
    have hreg2 : ∀ q ∈ rest, ((alookup
        (restoreStepState st r).registeredAgentTypes
        q.taskConfig.agentKind).getD []).contains q.taskConfig.agentType =
        true := by
      intro q hq
      rw [restoreStepState_registeredAgentTypes]
      exact hreg q (List.mem_cons_of_mem _ hq)
    have hperm2 : acHasPermission (restoreStepState st r).ac
        TASK_MANAGER_RESOURCE acting WRITE_ONLY_ACCESS = true := by
      rw [restoreStepState_ac,
        acHasPermission_createPermissions_ne (hroot r hmemr),
        acHasPermission_createResource_ne (hroot r hmemr)]
      exact hperm
    have hroot2 : ∀ q ∈ rest, taskConfigIdToValue q.taskConfig.taskKind
        q.taskConfig.taskType 1 ≠ TASK_MANAGER_RESOURCE :=
      fun q hq => hroot q (List.mem_cons_of_mem _ hq)
    have hrest := ih (restoreStepState st r) hdisj2
      (List.nodup_cons.mp hnodup).2 hreg2 hperm2 hroot2
    unfold restoreConfigs
    dsimp only
    rw [hstep]
    dsimp only
    refine ⟨hrest.1, ?_⟩
    rw [hrest.2, hconf]
    simp

/-- C5, witness: the round-trip theorem evaluated on the concrete
persisted record of the two-version `poem` config, restored into the base
manager. -/
theorem C5_amended_roundtrip_witness :
    (restoreConfigs baseMState c5Records supId).1 = .ok () ∧
    (restoreConfigs baseMState c5Records supId).2.taskConfigs =
      baseMState.taskConfigs ++
        c5Records.map fun r => (recKey r, [resetToV1 r]) :=
  C5_amended_roundtrip c5Records baseMState supId (by decide) (by decide)
    (by decide) (by decide) (by decide)

/-- C5, counterexample: the persisted record for the updated `poem`
config carries `taskConfigVersion = 2` and id `task:poem:v2`, but the
config stored after the restore replay has `taskConfigVersion = 1` and id
`task:poem:v1` — the restored set is not identical to the persisted one
and the config does not keep its version or id. -/
theorem C5_counterexample :
    (c5Records.map fun r =>
      (r.taskConfig.taskConfigVersion, r.taskConfig.taskConfigId)) =
      [(2, "task:poem:v2")] ∧
    ((alookup c5Restored.taskConfigs ("task", "poem")).map fun l =>
      l.map fun c => (c.taskConfigVersion, c.taskConfigId)) =
      some [(1, "task:poem:v1")] ∧
    ("task:poem:v1", (1 : Nat)) ≠ ("task:poem:v2", (2 : Nat)) := by decide

theorem alookup_supdate_isSome {κ α : Type} [DecidableEq κ]
    (l : List (κ × α)) (key : κ) (f : α → α) (k' : κ) :
    (alookup (supdate l key f) k').isSome = (alookup l k').isSome := by
  induction l with
  | nil => rfl
  | cons p rest ih =>
    rcases p with ⟨a, b⟩
    dsimp only [supdate, List.map_cons]
    by_cases hk : a = key
    · rw [if_pos hk]
      by_cases h' : a = k'
      · simp [alookup, h']
      · simp only [alookup, if_neg h']
        exact ih
    · rw [if_neg hk]
      by_cases h' : a = k'
      · simp [alookup, h']
      · simp only [alookup, if_neg h']
        exact ih

theorem keys_supdate {κ α : Type} [DecidableEq κ]
    (l : List (κ × α)) (key : κ) (f : α → α) :
    (supdate l key f).map Prod.fst = l.map Prod.fst := by
  induction l with
  | nil => rfl
  | cons p rest ih =>
    by_cases hk : p.1 = key
    · simpa [supdate, hk] using ih
    · simpa [supdate, hk] using ih

theorem mem_keys_aset {κ α : Type} [DecidableEq κ]
    {l : List (κ × α)} {k : κ} {v : α} {x : κ}
    (h : x ∈ (aset l k v).map Prod.fst) : x = k ∨ x ∈ l.map Prod.fst := by
  rcases List.mem_map.mp h with ⟨p, hp, hx⟩
  rcases mem_aset hp with hc | hc
  · left; rw [← hx, hc]
  · right; exact List.mem_map.mpr ⟨p, hc, hx⟩

theorem nodup_keys_aset {κ α : Type} [DecidableEq κ]
    {l : List (κ × α)} (k : κ) (v : α)
    (h : (l.map Prod.fst).Nodup) : ((aset l k v).map Prod.fst).Nodup := by
  induction l with
  | nil => simp [aset]
  | cons p rest ih =>
    simp only [List.map_cons, List.nodup_cons] at h
    by_cases hp : p.1 = k
    · simp only [aset, if_pos hp, List.map_cons, List.nodup_cons]
      exact ⟨hp ▸ h.1, h.2⟩
    · simp only [aset, if_neg hp, List.map_cons, List.nodup_cons]
      refine ⟨?_, ih h.2⟩
      intro hmem
      rcases mem_keys_aset hmem with hc | hc
      · exact hp hc
      · exact h.1 hc

theorem mem_keys_aremove {κ α : Type} [DecidableEq κ]
    {l : List (κ × α)} {k : κ} {x : κ}
    (h : x ∈ (aremove l k).map Prod.fst) : x ∈ l.map Prod.fst := by
  rcases List.mem_map.mp h with ⟨p, hp, hx⟩
  exact List.mem_map.mpr ⟨p, mem_aremove hp, hx⟩

theorem nodup_keys_aremove {κ α : Type} [DecidableEq κ]
    {l : List (κ × α)} (k : κ)
    (h : (l.map Prod.fst).Nodup) : ((aremove l k).map Prod.fst).Nodup := by
  induction l with
  | nil => simp [aremove]
  | cons p rest ih =>
    simp only [List.map_cons, List.nodup_cons] at h
    by_cases hp : p.1 = k
    · simpa [aremove, hp] using h.2
    · simp only [aremove, if_neg hp, List.map_cons, List.nodup_cons]
      exact ⟨fun hmem => h.1 (mem_keys_aremove hmem), ih h.2⟩

theorem alookup_aremove_ne {κ α : Type} [DecidableEq κ]
    {l : List (κ × α)} {k k' : κ} (h : k' ≠ k) :
    alookup (aremove l k) k' = alookup l k' := by
  induction l with
  | nil => rfl
  | cons p rest ih =>
    rcases p with ⟨a, b⟩
    dsimp only [aremove]
    by_cases hp : a = k
    · rw [if_pos hp]
      have hp' : ¬ a = k' := fun he => h (he ▸ hp)
      dsimp only [alookup]
      rw [if_neg hp']
    · rw [if_neg hp]
      dsimp only [alookup]
      by_cases hq : a = k'
      · rw [if_pos hq, if_pos hq]
      · rw [if_neg hq, if_neg hq]
        exact ih

theorem mem_sadd {α : Type} [DecidableEq α] {l : List α} {a b : α}
    (h : b ∈ sadd l a) : b ∈ l ∨ b = a := by
  by_cases hm : a ∈ l
  · exact Or.inl (by simpa [sadd, hm] using h)
  · simp only [sadd, if_neg hm, List.mem_append, List.mem_singleton] at h
    exact h

theorem nodup_sadd {α : Type} [DecidableEq α] {l : List α} (a : α)
    (h : l.Nodup) : (sadd l a).Nodup := by
  by_cases hm : a ∈ l
  · simpa [sadd, hm] using h
  · simp only [sadd, if_neg hm]
    exact List.nodup_append.mpr ⟨h, List.nodup_singleton a,
      fun x hx hxa => hm ((List.mem_singleton.mp hxa) ▸ hx)⟩

theorem c2_nums_nodup (l : List (String × RAgent))
    (hok : ∀ p ∈ l, p.1 = agentIdToStringV "operator" "poet" p.2.agentNum 1)
    (hkeys : (l.map Prod.fst).Nodup) :
    (l.map fun p => p.2.agentNum).Nodup := by
  induction l with
  | nil => simp
  | cons q rest ih =>
    simp only [List.map_cons, List.nodup_cons] at hkeys ⊢
    refine ⟨?_, ih (fun p hp => hok p (List.mem_cons_of_mem _ hp)) hkeys.2⟩
    intro hmem
    rcases List.mem_map.mp hmem with ⟨p, hp, hnum⟩
    apply hkeys.1
    refine List.mem_map.mpr ⟨p, hp, ?_⟩
    rw [hok p (List.mem_cons_of_mem _ hp), hok q (List.mem_cons_self _ _),
      hnum]

theorem nodup_nat_length_le (l : List Nat) (mps : Nat) (hn : l.Nodup)
    (hb : ∀ x ∈ l, 1 ≤ x ∧ x ≤ mps) : l.length ≤ mps := by
  have hsub : l.toFinset ⊆ Finset.Icc 1 mps := by
    intro x hx
    rcases hb x (List.mem_toFinset.mp hx) with ⟨h1, h2⟩
    exact Finset.mem_Icc.mpr ⟨h1, h2⟩
  have hcard := Finset.card_le_card hsub
  rw [List.toFinset_card_of_nodup hn] at hcard
  simpa [Nat.card_Icc] using hcard

theorem c2Base_eq (mps : Nat) : c2Base mps = c2St mps [] [(1, [])] := by
  cases mps with
  | zero => rfl
  | succ n => rfl

theorem c2Inv_eta (mps : Nat) (st : RState) (h : C2Inv mps st) :
    ∃ A vl, st = c2St mps A vl ∧ (vl = [] ∨ ∃ s, vl = [(1, s)]) := by
  rcases h.pools with ⟨vl, hpools, hvl⟩
  refine ⟨st.agents, vl, ?_, hvl⟩
  cases st with
  | mk cfgs agents pools facts =>
    have h1 : cfgs = [(("operator", "poet"), [c2Cfg1 mps])] := h.configs
    have h2 : facts = [("operator", [])] := h.factories
    have h3 : pools = [(("operator", "poet"), vl)] := hpools
    unfold c2St
    rw [h1, h2, h3]

theorem c2_acquireMark (mps : Nat) (st : RState) (h : C2Inv mps st)
    (id : String) : C2Inv mps (acquireMark st id) := by
  obtain ⟨hc, hf, hp, hok, hnd, hpn, hlive⟩ := h
  refine ⟨hc, hf, hp, ?_, ?_, hpn, ?_⟩
  · intro p hp'
    have hp2 : p ∈ supdate st.agents id fun a =>
      { a with inUse := true } := hp'
    rcases mem_supdate hp2 with ⟨q, hq, hc2 | hc2⟩
    · exact hc2 ▸ hok q hq
    · rcases hok q hq with ⟨e1, e2, e3, e4, e5, e6, e7, e8⟩
      rw [hc2]
      exact ⟨e1, e2, e3, e4, e5, e6, e7, e8⟩
  · show ((supdate st.agents id fun a =>
      { a with inUse := true }).map Prod.fst).Nodup
    rw [keys_supdate]
    exact hnd
  · intro s hs id' hid'
    have hv := hlive s hs id' hid'
    show (alookup (supdate st.agents id fun a =>
      { a with inUse := true }) id').isSome = true
    rw [alookup_supdate_isSome]
    exact hv

theorem c2Inv_base (mps : Nat) : C2Inv mps (c2Base mps) := by
  rw [c2Base_eq]
  refine ⟨rfl, rfl, ⟨[(1, [])], rfl, Or.inr ⟨[], rfl⟩⟩, ?_, ?_, ?_, ?_⟩
  · intro p hp
    exact absurd hp (List.not_mem_nil p)
  · exact List.nodup_nil
  · intro s hs
    have h' : [(("operator", "poet"), [(1, ([] : List String))])] =
        [(("operator", "poet"), [(1, s)])] := hs
    have hse : ([] : List String) = s := by simpa using h'
    exact hse ▸ List.nodup_nil
  · intro s hs id hid
    have h' : [(("operator", "poet"), [(1, ([] : List String))])] =
        [(("operator", "poet"), [(1, s)])] := hs
    have hse : ([] : List String) = s := by simpa using h'
    rw [← hse] at hid
    exact absurd hid (List.not_mem_nil id)

theorem c2_getCfg (mps : Nat) (A : List (String × RAgent))
    (vl : List (Nat × List String)) (v : Option Nat) :
    getAgentConfigE (c2St mps A vl) "operator" "poet" v =
      .ok (c2Cfg1 mps) ∨
    getAgentConfigE (c2St mps A vl) "operator" "poet" v =
      .error .notFound := by
  cases v with
  | none => left; rfl
  | some w =>
    by_cases hw : w = 1
    · subst hw; left; rfl
    · right
      unfold getAgentConfigE c2St
      simp [alookup, List.find?, c2Cfg1, c2PoetConfig, poetRConfig, hw,
        Ne.symm hw]

theorem alookup_aset_isSome {κ α : Type} [DecidableEq κ]
    (l : List (κ × α)) (k : κ) (v : α) (k' : κ)
    (h : k' ≠ k → (alookup l k').isSome = true) :
    (alookup (aset l k v) k').isSome = true := by
  by_cases he : k' = k
  · subst he
    rw [alookup_aset_self]
    rfl
  · rw [alookup_aset_ne l k k' v fun hh => he hh.symm]
    exact h he

theorem c2_createAgent_pres (mps : Nat) (A : List (String × RAgent))
    (s : List String) (h : C2Inv mps (c2St mps A [(1, s)]))
    (hnum : 1 ≤ mps →
      (s.filterMap fun id => alookup A id).length + 1 ≤ mps) :
    C2Inv mps (createAgent (c2St mps A [(1, s)]) "operator" "poet" 1).2 := by
  have heq : (createAgent (c2St mps A [(1, s)]) "operator" "poet" 1).2 =
      c2St mps
        (aset A (agentIdToStringV "operator" "poet"
          ((s.filterMap fun id => alookup A id).length + 1) 1)
          { agentId := agentIdToStringV "operator" "poet"
              ((s.filterMap fun id => alookup A id).length + 1) 1
            agentKind := "operator", agentType := "poet"
            agentNum := (s.filterMap fun id => alookup A id).length + 1
            agentConfigVersion := 1, config := c2Cfg1 mps, inUse := false })
        [(1, sadd s (agentIdToStringV "operator" "poet"
          ((s.filterMap fun id => alookup A id).length + 1) 1))] := rfl
  rw [heq]
  obtain ⟨hc, hf, hpl, hok, hnd, hpn, hlive⟩ := h
  refine ⟨rfl, rfl, ⟨_, rfl, Or.inr ⟨_, rfl⟩⟩, ?_, ?_, ?_, ?_⟩
  · intro p hp
    rcases mem_aset hp with hc2 | hc2
    · rw [hc2]
      refine ⟨rfl, rfl, rfl, rfl, rfl, rfl, Nat.le_add_left 1 _, hnum⟩
    · exact hok p hc2
  · exact nodup_keys_aset _ _ hnd
  · intro s' hs'
    have h' : [(("operator", "poet"),
        [(1, sadd s (agentIdToStringV "operator" "poet"
          ((s.filterMap fun id => alookup A id).length + 1) 1))])] =
        [(("operator", "poet"), [(1, s')])] := hs'
    have hse : sadd s (agentIdToStringV "operator" "poet"
        ((s.filterMap fun id => alookup A id).length + 1) 1) = s' := by
      simpa using h'
    rw [← hse]
    exact nodup_sadd _ (hpn s rfl)
  · intro s' hs' id' hid'
    have h' : [(("operator", "poet"),
        [(1, sadd s (agentIdToStringV "operator" "poet"
          ((s.filterMap fun id => alookup A id).length + 1) 1))])] =
        [(("operator", "poet"), [(1, s')])] := hs'
    have hse : sadd s (agentIdToStringV "operator" "poet"
        ((s.filterMap fun id => alookup A id).length + 1) 1) = s' := by
      simpa using h'
    rw [← hse] at hid'
    rcases mem_sadd hid' with hin | heqid
    · exact alookup_aset_isSome _ _ _ _ fun _ => hlive s rfl id' hin
    · exact alookup_aset_isSome _ _ _ _ fun hne => absurd heqid hne

theorem c2_acquire_pres (mps : Nat) (A : List (String × RAgent))
    (vl : List (Nat × List String)) (hvl : vl = [] ∨ ∃ s, vl = [(1, s)])
    (h : C2Inv mps (c2St mps A vl)) (v : Option Nat) :
    C2Inv mps (acquireAgent (c2St mps A vl) "operator" "poet" v).2 := by
  rcases c2_getCfg mps A vl v with hga | hga
  case inr =>
    unfold acquireAgent
    rw [hga]
    exact h
  case inl =>
  rcases hvl with rfl | ⟨s, rfl⟩
  · unfold acquireAgent
    rw [hga]
    exact h
  · cases mps with
    | zero =>
      unfold acquireAgent
      rw [hga]
      exact c2_acquireMark 0 _ (c2_createAgent_pres 0 A s h
        fun h1 => absurd h1 (by decide)) _
    | succ n =>
      have hfl := List.length_filterMap_le (fun id => alookup A id) s
      unfold acquireAgent
      rw [hga]
      simp only [c2St, alookup, aset, List.find?, c2Cfg1, c2PoetConfig,
        poetRConfig, List.map_cons, List.map_nil, eq_self_iff_true,
        if_true, decide_True]
      rw [if_neg (Nat.succ_ne_zero n)]
      split
      case h_1 agentId heq =>
        have hInter : C2Inv (n + 1) (c2St (n + 1) A [(1, sdel s agentId)]) := by
          obtain ⟨hc, hf, hpl, hok, hnd, hpn, hlive⟩ := h
          refine ⟨rfl, rfl, ⟨_, rfl, Or.inr ⟨_, rfl⟩⟩, hok, hnd, ?_, ?_⟩
          · intro s' hs'
            have h' : [(("operator", "poet"), [(1, sdel s agentId)])] =
                [(("operator", "poet"), [(1, s')])] := hs'
            have hse : sdel s agentId = s' := by simpa using h'
            rw [← hse]
            exact (hpn s rfl).erase agentId
          · intro s' hs' id' hid'
            have h' : [(("operator", "poet"), [(1, sdel s agentId)])] =
                [(("operator", "poet"), [(1, s')])] := hs'
            have hse : sdel s agentId = s' := by simpa using h'
            rw [← hse] at hid'
            exact hlive s rfl id' (List.mem_of_mem_erase hid')
        split
        · exact c2_acquireMark _ _ hInter agentId
        · exact c2_acquireMark _ _ hInter agentId
      case h_2 heq =>
        by_cases hlt : s.length < n + 1
        · rw [if_pos hlt]
          exact c2_acquireMark _ _
            (c2_createAgent_pres (n + 1) A s h (by intro _; omega)) _
        · rw [if_neg hlt]
          exact h

theorem c2_release_pres (mps : Nat) (A : List (String × RAgent))
    (vl : List (Nat × List String)) (hvl : vl = [] ∨ ∃ s, vl = [(1, s)])
    (h : C2Inv mps (c2St mps A vl)) (id : String) :
    C2Inv mps (releaseAgent (c2St mps A vl) id).2 := by
  unfold releaseAgent
  split
  case h_1 heq => exact h
  case h_2 agent heq =>
    obtain ⟨e1, e2, e3, e4, e5, e6, e7, e8⟩ :=
      h.agents_ok (id, agent) (alookup_mem heq)
    dsimp only
    rw [e6]
    rcases hvl with rfl | ⟨s, rfl⟩
    · exact h
    · cases mps with
      | zero =>
        show C2Inv 0 (destroyAgent (c2St 0 A [(1, s)]) id).2
        have e3' : agent.agentKind = "operator" := e3
        have e4' : agent.agentType = "poet" := e4
        have e5' : agent.agentConfigVersion = 1 := e5
        unfold destroyAgent
        rw [heq]
        dsimp only
        rw [e3', e4', e5']
        simp only [c2St, alookup, List.find?, aset, List.map_cons,
          List.map_nil, eq_self_iff_true, if_true, decide_True]
        split
        · refine ⟨rfl, rfl, ⟨_, rfl, Or.inl rfl⟩, ?_, ?_, ?_, ?_⟩
          · intro p hp
            have hp2 : p ∈ aremove A id := hp
            exact h.agents_ok p (mem_aremove hp2)
          · show ((aremove A id).map Prod.fst).Nodup
            exact nodup_keys_aremove _ h.keys_nodup
          · intro s' hs'
            have h' : [(("operator", "poet"),
                ([] : List (Nat × List String)))] =
                [(("operator", "poet"), [(1, s')])] := hs'
            simp at h'
          · intro s' hs'
            have h' : [(("operator", "poet"),
                ([] : List (Nat × List String)))] =
                [(("operator", "poet"), [(1, s')])] := hs'
            simp at h'
        · refine ⟨rfl, rfl, ⟨_, rfl, Or.inr ⟨_, rfl⟩⟩, ?_, ?_, ?_, ?_⟩
          · intro p hp
            have hp2 : p ∈ aremove A id := hp
            exact h.agents_ok p (mem_aremove hp2)
          · show ((aremove A id).map Prod.fst).Nodup
            exact nodup_keys_aremove _ h.keys_nodup
          · intro s' hs'
            have h' : [(("operator", "poet"), [(1, sdel s id)])] =
                [(("operator", "poet"), [(1, s')])] := hs'
            have hse : sdel s id = s' := by simpa using h'
            rw [← hse]
            exact (h.pool_nodup s rfl).erase id
          · intro s' hs' id' hid'
            have h' : [(("operator", "poet"), [(1, sdel s id)])] =
                [(("operator", "poet"), [(1, s')])] := hs'
            have hse : sdel s id = s' := by simpa using h'
            rw [← hse] at hid'
            rcases (h.pool_nodup s rfl).mem_erase_iff.mp hid' with ⟨hne, hins⟩
            have hlk : alookup (aremove A id) id' = alookup A id' :=
              alookup_aremove_ne hne
            show (alookup (aremove A id) id').isSome = true
            rw [hlk]
            exact h.pool_live s rfl id' hins
      | succ n =>
        rw [if_neg (show ¬((c2Cfg1 (n + 1)).maxPoolSize = 0) from
          Nat.succ_ne_zero n)]
        refine ⟨rfl, rfl, ⟨_, rfl, Or.inr ⟨_, rfl⟩⟩, ?_, ?_, ?_, ?_⟩
        · intro p hp
          have hp2 : p ∈ supdate A id fun a =>
            { a with inUse := false } := hp
          rcases mem_supdate hp2 with ⟨q, hq, hc2 | hc2⟩
          · exact hc2 ▸ h.agents_ok q hq
          · rcases h.agents_ok q hq with ⟨f1, f2, f3, f4, f5, f6, f7, f8⟩
            rw [hc2]
            exact ⟨f1, f2, f3, f4, f5, f6, f7, f8⟩
        · show ((supdate A id fun a =>
            { a with inUse := false }).map Prod.fst).Nodup
          rw [keys_supdate]
          exact h.keys_nodup
        · intro s' hs'
          have h' : [(("operator", "poet"), [(1, sadd s id)])] =
              [(("operator", "poet"), [(1, s')])] := hs'
          have hse : sadd s id = s' := by simpa using h'
          rw [← hse]
          exact nodup_sadd _ (h.pool_nodup s rfl)
        · intro s' hs' id' hid'
          have h' : [(("operator", "poet"), [(1, sadd s id)])] =
              [(("operator", "poet"), [(1, s')])] := hs'
          have hse : sadd s id = s' := by simpa using h'
          rw [← hse] at hid'
          show (alookup (supdate A id fun a =>
            { a with inUse := false }) id').isSome = true
          rw [alookup_supdate_isSome]
          rcases mem_sadd hid' with hin | heqid
          · exact h.pool_live s rfl id' hin
          · have heq' : alookup A id = some agent := heq
            rw [heqid, heq']
            rfl

theorem c2_step (mps : Nat) (st : RState) (h : C2Inv mps st) (op : C2Op) :
    C2Inv mps (c2Apply st op) := by
  obtain ⟨A, vl, rfl, hvl⟩ := c2Inv_eta mps st h
  cases op with
  | acquire v => exact c2_acquire_pres mps A vl hvl h v
  | release id => exact c2_release_pres mps A vl hvl h id

theorem c2Inv_run (mps : Nat) (ops : List C2Op) :
    C2Inv mps (c2Run mps ops) := by
  unfold c2Run
  have hgen : ∀ (l : List C2Op) (st : RState), C2Inv mps st →
      C2Inv mps (l.foldl c2Apply st) := by
    intro l
    induction l with
    | nil => intro st h; exact h
    | cons op rest ih =>
      intro st h
      exact ih _ (c2_step mps st h op)
  exact hgen ops _ (c2Inv_base mps)

theorem c2Inv_liveCount (mps : Nat) (st : RState) (h : C2Inv mps st)
    (hm : 1 ≤ mps) : liveCount st "operator" "poet" 1 ≤ mps := by
  unfold liveCount
  have hfilter : (st.agents.filter fun p =>
      p.2.agentKind == "operator" && p.2.agentType == "poet" &&
        p.2.agentConfigVersion == 1) = st.agents := by
    apply List.filter_eq_self.mpr
    intro p hp
    rcases h.agents_ok p hp with ⟨-, -, e3, e4, e5, -, -, -⟩
    simp [e3, e4, e5]
  rw [hfilter]
  have hnodup := c2_nums_nodup st.agents
    (fun p hp => ((h.agents_ok p hp).1).trans (h.agents_ok p hp).2.1)
    h.keys_nodup
  have hbound := nodup_nat_length_le (st.agents.map fun p => p.2.agentNum)
    mps hnodup ?_
  · simpa using hbound
  · intro x hx
    rcases List.mem_map.mp hx with ⟨p, hp, hxp⟩
    rcases h.agents_ok p hp with ⟨-, -, -, -, -, -, e7, e8⟩
    exact hxp ▸ ⟨e7, e8 hm⟩

theorem c2Inv_match (mps : Nat) (st : RState) (h : C2Inv mps st) :
    poolAgentsMatch st := by
  intro kp hkp vs hvs id hid
  rcases h.pools with ⟨vl, hpools, hvl⟩
  rw [hpools] at hkp
  have hkpe : kp = (("operator", "poet"), vl) := List.mem_singleton.mp hkp
  subst hkpe
  rcases hvl with rfl | ⟨s, rfl⟩
  · exact absurd hvs (List.not_mem_nil vs)
  · have hvse : vs = (1, s) := List.mem_singleton.mp hvs
    subst hvse
    have hsome := h.pool_live s hpools id hid
    rcases Option.isSome_iff_exists.mp hsome with ⟨ag, hag⟩
    rcases h.agents_ok (id, ag) (alookup_mem hag) with
      ⟨-, -, e3, e4, e5, -, -, -⟩
    exact ⟨ag, hag, e3, e4, e5⟩

/-- C2, amended: across every interleaving of `acquireAgent` and
`releaseAgent` calls on a registry holding the single `poet` config with
pool size `mps ≥ 1`, the number of live `(operator, poet, v1)` instances
stays at most `mps`, and every id parked in the version's pool set
refers to a live instance of that kind, type and version.  (For
`mps = 0` the live-count bound fails, as `C2_counterexample` shows: the
id of the second on-demand instance collides with the first only after
`created + 1` catches up, so two un-released acquires leave two live
instances.) -/
theorem C2_amended_invariant (mps : Nat) (ops : List C2Op)
    (hm : 1 ≤ mps) :
    liveCount (c2Run mps ops) "operator" "poet" 1 ≤ mps ∧
    poolAgentsMatch (c2Run mps ops) :=
  ⟨c2Inv_liveCount mps _ (c2Inv_run mps ops) hm,
   c2Inv_match mps _ (c2Inv_run mps ops)⟩

/-- C2, witness: the amended invariant evaluated at pool size 1 on the
trace acquire, release, re-acquire the freed agent, acquire again. -/
theorem C2_amended_invariant_witness :
    1 ≤ 1 ∧
    (liveCount (c2Run 1 [C2Op.acquire none,
        C2Op.release "operator:poet[1]:v1", C2Op.acquire none,
        C2Op.acquire none]) "operator" "poet" 1 ≤ 1 ∧
      poolAgentsMatch (c2Run 1 [C2Op.acquire none,
        C2Op.release "operator:poet[1]:v1", C2Op.acquire none,
        C2Op.acquire none])) :=
  ⟨by decide,
   C2_amended_invariant 1 [C2Op.acquire none,
     C2Op.release "operator:poet[1]:v1", C2Op.acquire none,
     C2Op.acquire none] (by decide)⟩
